import Mathlib

/-!
# Verification of the epidemic particle simulation (`src/App.tsx`)

Shallow embedding of the simulation engine of the repository
`react_epidemic`.  The source is a React component whose `animate`
callback advances the simulation; the pure simulation logic is embedded
here as executable Lean definitions:

* coordinates are exact rationals (`ℚ`); the JavaScript floating point
  arithmetic is modelled exactly (the claims under study never hinge on
  float rounding);
* every `Math.random()` / `rand(a, b)` call site is modelled by a
  dedicated oracle field holding that call's return value;
* `Math.sqrt` appears in the source only to normalise straight-line
  transit steps and in comparisons of the form `sqrt(d) < 3`; the
  comparisons are embedded exactly via the equivalent `d < 9`, and the
  normalisation uses an abstract oracle function `sqrtFn` (no proved
  claim depends on its values);
* the composite draws `r * cos(angle)` / `r * sin(angle)` (centre entry
  and orbit) are modelled as single oracle draws for the resulting
  offsets, since no claim depends on trigonometric values.

Definitions keep the source's names (`getCommunityBounds`,
`makeSpatialHash`, `getNearbyCellCoords`, `initialState`, ...).
-/

namespace Epidemic

/-! ## Static layout constants (source lines 10-30) -/

def WIDTH : ℚ := 800
def HEIGHT : ℚ := 740
def COMMUNITY_PADDING : ℚ := 40
def COMMUNITY_ROWS : ℕ := 3
def COMMUNITY_COLS : ℕ := 3
def NORMAL_COMMUNITIES : ℕ := COMMUNITY_ROWS * COMMUNITY_COLS - 1
def QUARANTINE_COMMUNITY_IDX : ℕ := 8
def PARTICLE_COUNT : ℕ := 500
def PARTICLES_PER_COMMUNITY : ℕ := PARTICLE_COUNT / NORMAL_COMMUNITIES
def TRAVEL_PROB : ℚ := 0.0002
def VISITING_DURATION : ℤ := 150
def CENTRE_VISIT_PROB : ℚ := 0.001
def CENTRE_RADIUS : ℚ := 15

def innerW : ℚ := WIDTH - COMMUNITY_PADDING * (COMMUNITY_COLS + 1)
def innerH : ℚ := HEIGHT - COMMUNITY_PADDING * (COMMUNITY_ROWS + 1)
def COMMUNITY_WIDTH : ℚ := innerW / COMMUNITY_COLS
def COMMUNITY_HEIGHT : ℚ := innerH / COMMUNITY_ROWS

/-! ## Data model (source lines 45-71) -/

/-- `type Status = 'healthy' | 'exposed' | 'infected' | 'recovered' | 'dead'`. -/
inductive Status where
  | healthy
  | exposed
  | infected
  | recovered
  | dead
deriving DecidableEq, Repr, Fintype

/-- The `Particle` interface (source lines 46-71).  Optional (`?`) fields
become `Option`; `quarantineEntryAnim` / `goingHomeAnim` carry only their
target point (the `animating` flag is `true` whenever the object is
present in the source). -/
structure Particle where
  x : ℚ
  y : ℚ
  vx : ℚ
  vy : ℚ
  status : Status
  timeInfected : ℕ
  willDie : Option Bool
  infectionCount : Option ℕ
  homeCommunity : ℕ
  currentCommunity : ℕ
  isVisiting : Bool
  isTravelling : Bool
  travelTargetX : Option ℚ
  travelTargetY : Option ℚ
  travellingBack : Bool
  visitTimeLeft : Option ℤ
  atCentre : Bool
  centreTimeLeft : ℤ
  quarantined : Bool
  timeSinceInfected : Option ℕ
  quarantineEntryAnim : Option (ℚ × ℚ)
  releasedFromQuarantine : Bool
  quarantineEligible : Option Bool
  goingHomeAnim : Option (ℚ × ℚ)
deriving DecidableEq, Repr

/-- The sliders / checkboxes consumed by one tick of `animate`. -/
structure Config where
  incubationPeriod : ℚ
  infectionRadius : ℚ
  infectionProbability : ℚ
  recoveryTime : ℚ
  deathRate : ℚ
  quarantineMode : Bool
  quarantineEffectiveness : ℚ
deriving DecidableEq, Repr

/-! ## Region layout (source lines 73-104, `getCommunityBounds`) -/

structure Bounds where
  minX : ℚ
  maxX : ℚ
  minY : ℚ
  maxY : ℚ
  centerX : ℚ
  centerY : ℚ
deriving DecidableEq, Repr

/-- The quarantine cell bounds, written as in the source (lines 75-87):
the bottom-right cell expressed from the canvas extent. -/
def quarantineBounds : Bounds :=
  let minX := WIDTH - COMMUNITY_PADDING - COMMUNITY_WIDTH
  let maxX := WIDTH - COMMUNITY_PADDING
  let minY := HEIGHT - COMMUNITY_PADDING - COMMUNITY_HEIGHT
  let maxY := HEIGHT - COMMUNITY_PADDING
  { minX := minX, maxX := maxX, minY := minY, maxY := maxY,
    centerX := (minX + maxX) / 2, centerY := (minY + maxY) / 2 }

/-- The row/column grid-cell bounds (source lines 89-103).  JavaScript
`Math.floor(idx / COMMUNITY_COLS)` on a possibly negative `idx` is
`Int.fdiv`; `idx % COMMUNITY_COLS` is the truncated remainder
`Int.tmod`. -/
def gridCellBounds (idx : ℤ) : Bounds :=
  let row : ℤ := Int.fdiv idx COMMUNITY_COLS
  let col : ℤ := Int.tmod idx COMMUNITY_COLS
  let minX := COMMUNITY_PADDING + col * (COMMUNITY_WIDTH + COMMUNITY_PADDING)
  let maxX := minX + COMMUNITY_WIDTH
  let minY := COMMUNITY_PADDING + row * (COMMUNITY_HEIGHT + COMMUNITY_PADDING)
  let maxY := minY + COMMUNITY_HEIGHT
  { minX := minX, maxX := maxX, minY := minY, maxY := maxY,
    centerX := (minX + maxX) / 2, centerY := (minY + maxY) / 2 }

/-- `getCommunityBounds` (source lines 73-104).  The early return handles
index 8; afterwards the source computes row/col and throws
(`Except.error`) exactly when `idx > 7`. -/
def getCommunityBounds (idx : ℤ) : Except String Bounds :=
  if idx = QUARANTINE_COMMUNITY_IDX then .ok quarantineBounds
  else if idx > 7 then .error "Quarantine only at index 8"
  else .ok (gridCellBounds idx)

/-- Total helper used where the source calls `getCommunityBounds` on a
community index that is in range in every reachable state (0..8). -/
def cbounds (c : ℕ) : Bounds :=
  match getCommunityBounds (c : ℤ) with
  | .ok b => b
  | .error _ => ⟨0, 0, 0, 0, 0, 0⟩

/-! ## Spatial hash (source lines 106-130) -/

/-- A bucket key: the source string key
`community:cx,cy` is modelled by the tuple it encodes. -/
abbrev CellKey := ℕ × ℤ × ℤ

/-- The key a particle hashes to (source line 115-117):
region index plus integer-divided cell coordinates. -/
def hashKey (p : Particle) (cellSize : ℚ) : CellKey :=
  (p.currentCommunity, ⌊p.x / cellSize⌋, ⌊p.y / cellSize⌋)

/-- One iteration of the `makeSpatialHash` loop (source lines
112-119): skip the particle when a community filter is given and does
not match, or when it is dead; otherwise push its index onto its
bucket. -/
def hashStep (cellSize : ℚ) (onlyCommunity : Option ℕ)
    (hash : CellKey → List ℕ) (ip : ℕ × Particle) : CellKey → List ℕ :=
  if (match onlyCommunity with
      | some c => decide (ip.2.currentCommunity ≠ c)
      | none => false) then hash
  else if ip.2.status = .dead then hash
  else fun k => if k = hashKey ip.2 cellSize then hash k ++ [ip.1] else hash k

/-- `makeSpatialHash` (source lines 106-121): iterate over indices in
order, building the bucket map. -/
def makeSpatialHash (ps : List Particle) (cellSize : ℚ)
    (onlyCommunity : Option ℕ) : CellKey → List ℕ :=
  ps.enum.foldl (hashStep cellSize onlyCommunity) (fun _ => [])

/-- `getNearbyCellCoords` (source lines 122-130): every cell of the
square bounding the radius-`radius` disc around `(x, y)`. -/
def getNearbyCellCoords (x y radius cellSize : ℚ) : List (ℤ × ℤ) :=
  let minX := ⌊(x - radius) / cellSize⌋
  let maxX := ⌊(x + radius) / cellSize⌋
  let minY := ⌊(y - radius) / cellSize⌋
  let maxY := ⌊(y + radius) / cellSize⌋
  ((List.range (maxX - minX + 1).toNat).map (fun a => minX + a)).flatMap
    (fun cx => ((List.range (maxY - minY + 1).toNat).map (fun b => minY + b)).map
      (fun cy => (cx, cy)))

/-! ## Per-agent motion & quarantine lifecycle (source lines 208-487)

Each field of `MoveOracle` holds the return value of one
`Math.random()` / `rand(a, b)` call site of the per-agent loop, in
source order.  `sqrtFn` models `Math.sqrt` (used only for transit-step
normalisation; arrival comparisons `sqrt(d) < 3` are embedded exactly as
`d < 9`).  `centreOffX/Y` and `orbitDx/Dy` model the composite values
`r * cos(angle)` / `r * sin(angle)` and `cos(angle) * 0.9` /
`sin(angle) * 0.9`. -/
structure MoveOracle where
  eligDraw : ℚ
  entryTx : ℚ
  entryTy : ℚ
  homeDx : ℚ
  homeDy : ℚ
  sqrtFn : ℚ → ℚ
  releaseVx : ℚ
  releaseVy : ℚ
  centreDraw : ℚ
  centreDur : ℤ
  centreExtra : ℤ
  centreOffX : ℚ
  centreOffY : ℚ
  orbitDx : ℚ
  orbitDy : ℚ
  exitVx : ℚ
  exitVy : ℚ
  travTx : ℚ
  travTy : ℚ
  arrVx : ℚ
  arrVy : ℚ
  visitExtra : ℤ
  brownDx : ℚ
  brownDy : ℚ
  travelDraw : ℚ
  travelPick : ℕ

/-- Quarantine lifecycle, stage 1 (source lines 218-223): start the
infection clock. -/
def qlStartClock (p : Particle) : Particle :=
  if p.status = .infected ∧ p.timeSinceInfected = none then
    { p with timeSinceInfected := some 0 } else p

/-- Quarantine lifecycle, stage 2 (source lines 226-232): one
eligibility draw per infection. -/
def qlEligibility (cfg : Config) (o : MoveOracle) (p : Particle) : Particle :=
  if p.status = .infected ∧ p.quarantineEligible = none then
    { p with
        quarantineEligible :=
          some (decide (o.eligDraw * 100 < cfg.quarantineEffectiveness)) }
  else p

/-- Quarantine lifecycle, stage 3 (source lines 234-262): detection
countdown, then start of the entry transit. -/
def qlDetection (o : MoveOracle) (p : Particle) : Particle :=
  if p.status = .infected ∧ p.quarantineEligible = some true ∧ p.quarantined = false ∧
      p.currentCommunity ≠ QUARANTINE_COMMUNITY_IDX then
    let p1 := { p with timeSinceInfected := some (p.timeSinceInfected.getD 0 + 1) }
    if p1.timeSinceInfected.getD 0 ≥ 5 ∧ p1.quarantined = false ∧
        p1.quarantineEntryAnim = none then
      { p1 with quarantineEntryAnim := some (o.entryTx, o.entryTy),
                vx := 0, vy := 0,
                isTravelling := false, isVisiting := false,
                atCentre := false, centreTimeLeft := 0, travellingBack := false }
    else p1
  else p

/-- Quarantine lifecycle, stage 4 (source lines 264-267): quarantined
infected agents keep counting. -/
def qlCount (p : Particle) : Particle :=
  if p.quarantined = true ∧ p.status = .infected then
    { p with timeSinceInfected := some (p.timeSinceInfected.getD 0 + 1) } else p

/-- Quarantine lifecycle, stage 5 (source lines 269-282): release (fly
home) once recovered or dead. -/
def qlRelease (o : MoveOracle) (p : Particle) : Particle :=
  if p.quarantined = true ∧ (p.status = .recovered ∨ p.status = .dead) ∧
      p.goingHomeAnim = none then
    let target := cbounds p.homeCommunity
    { p with goingHomeAnim := some (target.centerX + o.homeDx, target.centerY + o.homeDy) }
  else p

/-- Quarantine lifecycle (source lines 216-283), executed only when
quarantine mode is on, before the motion branches. -/
def quarantineLifecycle (cfg : Config) (o : MoveOracle) (p : Particle) : Particle :=
  if cfg.quarantineMode then
    qlRelease o (qlCount (qlDetection o (qlEligibility cfg o (qlStartClock p))))
  else p

/-- One straight-line travel step (source lines 397-429). -/
def travelStep (o : MoveOracle) (p0 : Particle) : Particle :=
  -- lines 398-404: lazily computed travel target
  let p :=
    if p0.travelTargetX = none ∨ p0.travelTargetY = none then
      let dest := if p0.travellingBack then cbounds p0.homeCommunity
                  else cbounds p0.currentCommunity
      { p0 with travelTargetX := some (dest.centerX + o.travTx),
                travelTargetY := some (dest.centerY + o.travTy) }
    else p0
  let tx := p.travelTargetX.getD 0
  let ty := p.travelTargetY.getD 0
  let dx := tx - p.x
  let dy := ty - p.y
  let distSq := dx * dx + dy * dy
  if distSq < 9 then   -- source: dist < 3
    let p := { p with x := tx, y := ty, isTravelling := false,
                      vx := o.arrVx * 0.4, vy := o.arrVy * 0.4,
                      travelTargetX := none, travelTargetY := none }
    if p.travellingBack then
      { p with travellingBack := false, isVisiting := false,
               currentCommunity := p.homeCommunity }
    else
      { p with isVisiting := true,
               visitTimeLeft := some (VISITING_DURATION + o.visitExtra) }
  else
    let dist := o.sqrtFn distSq
    let step := min 8 dist
    { p with x := p.x + dx / dist * step, y := p.y + dy / dist * step }

/-- Boundary bounce with a small reposition inside (source lines
348-362).  JavaScript `Math.abs(p.vx) || 0.15` yields `0.15` when the
absolute value is `0`. -/
def bounceStep (bounds : Bounds) (p : Particle) : Particle :=
  let p1 :=
    if p.x < bounds.minX then
      { p with x := bounds.minX + 1.2, vx := if |p.vx| = 0 then 0.15 else |p.vx| }
    else if p.x > bounds.maxX then
      { p with x := bounds.maxX - 1.2, vx := if |p.vx| = 0 then -0.15 else -(|p.vx|) }
    else p
  if p1.y < bounds.minY then
    { p1 with y := bounds.minY + 1.2, vy := if |p1.vy| = 0 then 0.15 else |p1.vy| }
  else if p1.y > bounds.maxY then
    { p1 with y := bounds.maxY - 1.2, vy := if |p1.vy| = 0 then -0.15 else -(|p1.vy|) }
  else p1

/-- Centre-visit entry (source lines 365-380): never in the quarantine
region. -/
def centreEntry (o : MoveOracle) (bounds : Bounds) (p : Particle) : Particle :=
  if p.atCentre = false ∧ o.centreDraw < CENTRE_VISIT_PROB ∧
      p.isTravelling = false ∧ p.isVisiting = false ∧
      p.currentCommunity ≠ QUARANTINE_COMMUNITY_IDX then
    { p with atCentre := true, centreTimeLeft := o.centreDur + o.centreExtra,
             x := bounds.centerX + o.centreOffX, y := bounds.centerY + o.centreOffY,
             vx := 0, vy := 0 }
  else p

/-- Centre-visit orbit, countdown and exit (source lines 381-394); the
caller only invokes this when `atCentre` holds, and it ends the agent's
tick. -/
def centreMotion (o : MoveOracle) (bounds : Bounds) (p : Particle) : Particle :=
  let p4 := { p with centreTimeLeft := p.centreTimeLeft - 1,
                     x := p.x + o.orbitDx, y := p.y + o.orbitDy }
  if p4.centreTimeLeft ≤ 0 then
    { p4 with atCentre := false,
              x := min (max (bounds.minX + 5) p4.x) (bounds.maxX - 5),
              y := min (max (bounds.minY + 5) p4.y) (bounds.maxY - 5),
              vx := o.exitVx * 0.3, vy := o.exitVy * 0.3 }
  else p4

/-- Brownian velocity perturbation and integration (source lines
433-436) followed by the tighter edge unsticking (lines 439-452). -/
def brownianStep (o : MoveOracle) (bounds : Bounds) (p : Particle) : Particle :=
  let p5a := { p with vx := p.vx + o.brownDx, vy := p.vy + o.brownDy }
  let p5 := { p5a with x := p5a.x + p5a.vx, y := p5a.y + p5a.vy }
  let p6 :=
    if p5.x < bounds.minX + 1 then
      { p5 with x := bounds.minX + 1.1, vx := if |p5.vx| = 0 then 0.08 else |p5.vx| }
    else if p5.x > bounds.maxX - 1 then
      { p5 with x := bounds.maxX - 1.1, vx := if |p5.vx| = 0 then -0.08 else -(|p5.vx|) }
    else p5
  if p6.y < bounds.minY + 1 then
    { p6 with y := bounds.minY + 1.1, vy := if |p6.vy| = 0 then 0.08 else |p6.vy| }
  else if p6.y > bounds.maxY - 1 then
    { p6 with y := bounds.maxY - 1.1, vy := if |p6.vy| = 0 then -0.08 else -(|p6.vy|) }
  else p6

/-- Spontaneous travel initiation (source lines 455-474). -/
def travelInit (o : MoveOracle) (p : Particle) : Particle :=
  if p.isVisiting = false ∧ p.isTravelling = false ∧
      o.travelDraw < TRAVEL_PROB ∧
      p.currentCommunity ≠ QUARANTINE_COMMUNITY_IDX then
    let available := (List.range NORMAL_COMMUNITIES).filter
      (fun ci => decide (ci ≠ p.homeCommunity))
    if available.length > 0 then
      let newCom := available.getD (o.travelPick % available.length) 0
      { p with currentCommunity := newCom, isTravelling := true,
               travellingBack := false, visitTimeLeft := some 0,
               travelTargetX := none, travelTargetY := none }
    else p
  else p

/-- Visit-countdown expiry (source lines 476-486).  JS compares
`undefined <= 0` as false, hence the `match` on `visitTimeLeft`. -/
def visitExpiry (p : Particle) : Particle :=
  if p.isVisiting = true ∧ p.isTravelling = false then
    let p9 := match p.visitTimeLeft with
              | some v => { p with visitTimeLeft := some (v - 1) }
              | none => p
    if (match p9.visitTimeLeft with | some v => decide (v ≤ 0) | none => false) then
      { p9 with isTravelling := true, travellingBack := true,
                travelTargetX := none, travelTargetY := none,
                isVisiting := false, currentCommunity := p9.homeCommunity }
    else p9
  else p

/-- Normal community behaviour (source lines 345-486): bounce, centre
logic, travelling, Brownian motion, travel initiation, visit expiry. -/
def normalMotion (o : MoveOracle) (p : Particle) : Particle :=
  let bounds := cbounds p.currentCommunity
  let p3 := centreEntry o bounds (bounceStep bounds p)
  if p3.atCentre then centreMotion o bounds p3
  else if p3.isTravelling then travelStep o p3
  else visitExpiry (travelInit o (brownianStep o bounds p3))

/-- The motion branches of the per-agent loop (source lines 286-486):
quarantine-entry transit, going-home transit, quarantined freeze, then
normal community behaviour. -/
def motionBody (o : MoveOracle) (p : Particle) : Particle :=
  -- lines 286-306: animate quarantine entry
  match p.quarantineEntryAnim with
  | some t =>
    let dx := t.1 - p.x
    let dy := t.2 - p.y
    let distSq := dx * dx + dy * dy
    if distSq < 9 then   -- source: dist < 3
      { p with x := t.1, y := t.2, quarantined := true,
               currentCommunity := QUARANTINE_COMMUNITY_IDX,
               quarantineEntryAnim := none, vx := 0, vy := 0 }
    else
      let dist := o.sqrtFn distSq
      let step := min dist 10
      { p with x := p.x + dx / dist * step, y := p.y + dy / dist * step }
  | none =>
  -- lines 309-336: animate going home after quarantine
  match p.goingHomeAnim with
  | some t =>
    let dx := t.1 - p.x
    let dy := t.2 - p.y
    let distSq := dx * dx + dy * dy
    if distSq < 9 then
      { p with x := t.1, y := t.2, currentCommunity := p.homeCommunity,
               quarantined := false, quarantineEligible := none,
               timeSinceInfected := none, goingHomeAnim := none,
               vx := o.releaseVx * 0.3, vy := o.releaseVy * 0.3,
               atCentre := false, isVisiting := false,
               isTravelling := false, travellingBack := false }
    else
      let dist := o.sqrtFn distSq
      let step := min dist 10
      { p with x := p.x + dx / dist * step, y := p.y + dy / dist * step }
  | none =>
  -- lines 339-343: quarantined agents are frozen
  if p.quarantined then p
  else normalMotion o p

/-- One agent's full per-tick movement update (source lines 213-487). -/
def updateAgent (cfg : Config) (o : MoveOracle) (p : Particle) : Particle :=
  motionBody o (quarantineLifecycle cfg o p)

/-! ## Initial population (source lines 132-163, `initialState`) -/

/-- The `Math.random()` / `rand()` outputs consumed for one initial
particle. -/
structure InitDraw where
  ux : ℚ
  uy : ℚ
  rvx : ℚ
  rvy : ℚ

/-- `initialState` (source lines 132-163). -/
def initialState (o : ℕ → InitDraw) (count initialInfected : ℕ) : List Particle :=
  (List.range count).map fun i =>
    let community := i / PARTICLES_PER_COMMUNITY
    let homeCommunity := min community (NORMAL_COMMUNITIES - 1)
    let b := cbounds homeCommunity
    { x := (o i).ux * (b.maxX - b.minX) + b.minX,
      y := (o i).uy * (b.maxY - b.minY) + b.minY,
      vx := (o i).rvx * 0.3,
      vy := (o i).rvy * 0.3,
      status := if i < initialInfected then .infected else .healthy,
      timeInfected := 0,
      willDie := none,
      infectionCount := some 0,
      homeCommunity := homeCommunity,
      currentCommunity := homeCommunity,
      isVisiting := false,
      isTravelling := false,
      travelTargetX := none,
      travelTargetY := none,
      travellingBack := false,
      visitTimeLeft := some 0,
      atCentre := false,
      centreTimeLeft := 0,
      quarantined := false,
      timeSinceInfected := if i < initialInfected then some 0 else none,
      quarantineEntryAnim := none,
      releasedFromQuarantine := false,
      quarantineEligible := none,
      goingHomeAnim := none }

/-! ## Infection events, per-episode counts (the `Map`), simulation state -/

/-- One entry of `infectionEventsRef` (source line 186). -/
structure InfEvent where
  infectorIndex : ℕ
  time : ℕ
deriving DecidableEq, Repr

/-- `infectedInfectionCountsRef` (source line 187), as an association
list. -/
abbrev CountMap := List (ℕ × ℕ)

/-- `m.get(k) ?? 0` / `m.get(k) || 0`. -/
def mapGet (m : CountMap) (k : ℕ) : ℕ :=
  match m.find? (fun kv => decide (kv.1 = k)) with
  | some kv => kv.2
  | none => 0

/-- `m.set(k, v)`. -/
def mapSet (m : CountMap) (k v : ℕ) : CountMap :=
  match m with
  | [] => [(k, v)]
  | kv :: rest => if kv.1 = k then (k, v) :: rest else kv :: mapSet rest k v

/-- `m.delete(k)`. -/
def mapDelete (m : CountMap) (k : ℕ) : CountMap :=
  m.filter (fun kv => decide (kv.1 ≠ k))

/-- The engine state mutated by one tick: the particle array plus the
infection-event log and the per-episode infection-count map. -/
structure SimState where
  ps : List Particle
  events : List InfEvent
  counts : CountMap
deriving DecidableEq, Repr

/-! ## Transmission & infected progression (source lines 489-544) -/

/-- The `Math.random()` outputs consumed by the infection pass:
`deathDraw i` is the `willDie` draw of source `i`; `infDraw i j` is the
contact draw of source `i` against candidate `j` (each pair is examined
at most once per tick, since a candidate occupies exactly one cell). -/
structure InfOracle where
  deathDraw : ℕ → ℚ
  infDraw : ℕ → ℕ → ℚ

/-- One source/candidate contact attempt (source lines 519-541): skip
self and non-healthy candidates; gate on the centre condition; compare
squared distance against the squared radius; draw against one tenth of
the configured infection probability; on success expose the target,
record the event and bump the source's count. -/
def processPair (cfg : Config) (o : InfOracle) (time : ℕ) (i : ℕ) (src : Particle)
    (st : SimState) (j : ℕ) : SimState :=
  if i = j then st else
  match st.ps[j]? with
  | none => st
  | some other =>
    if other.status ≠ .healthy then st
    else if (src.atCentre = true ∧ other.atCentre = true ∧
             src.currentCommunity = other.currentCommunity) ∨
            (src.atCentre = false ∧ other.atCentre = false) then
      let dx := src.x - other.x
      let dy := src.y - other.y
      if dx * dx + dy * dy < cfg.infectionRadius * cfg.infectionRadius then
        if o.infDraw i j < cfg.infectionProbability / 10 then
          { ps := st.ps.set j { other with status := .exposed, timeInfected := 0 },
            events := st.events ++ [⟨i, time⟩],
            counts := mapSet st.counts i (mapGet st.counts i + 1) }
        else st
      else st
    else st

/-- Processing of one candidate source index inside one community's pass
(source lines 493-543): the region/quarantine/status filter, the
`timeInfected` increment, the one-time `willDie` draw, the death and
recovery transitions, then the neighbour-cell enumeration. -/
def processSource (cfg : Config) (o : InfOracle) (time : ℕ) (cellSize : ℚ)
    (community : ℕ) (hash : CellKey → List ℕ) (st : SimState) (i : ℕ) : SimState :=
  match st.ps[i]? with
  | none => st
  | some p =>
  if p.currentCommunity ≠ community ∨ p.quarantined = true ∨ p.status ≠ .infected then st
  else
    let p1 := { p with timeInfected := p.timeInfected + 1 }
    let drawn := p1.willDie = none
    let p2 := if drawn then
        { p1 with willDie := some (decide (o.deathDraw i < cfg.deathRate)),
                  infectionCount := some 0 }
      else p1
    let counts2 := if drawn then mapSet st.counts i 0 else st.counts
    if p2.willDie = some true ∧ (p2.timeInfected : ℚ) > cfg.recoveryTime / 2 then
      { st with ps := st.ps.set i { p2 with status := .dead },
                counts := mapDelete counts2 i }
    else if p2.willDie = some false ∧ (p2.timeInfected : ℚ) > cfg.recoveryTime then
      { st with ps := st.ps.set i { p2 with status := .recovered },
                counts := mapDelete counts2 i }
    else
      let st2 : SimState := { st with ps := st.ps.set i p2, counts := counts2 }
      let relCells := getNearbyCellCoords p2.x p2.y cfg.infectionRadius cellSize
      relCells.foldl
        (fun st3 c => (hash (community, c.1, c.2)).foldl (processPair cfg o time i p2) st3)
        st2

/-- The whole infection pass (source lines 489-544): for each of the 8
normal communities, build the community-scoped spatial hash with cell
size `infectionRadius + 3`, then scan every index against it. -/
def infectionPhase (cfg : Config) (o : InfOracle) (time : ℕ) (st : SimState) : SimState :=
  let cellSize := cfg.infectionRadius + 3
  (List.range NORMAL_COMMUNITIES).foldl
    (fun st1 community =>
      let hash := makeSpatialHash st1.ps cellSize (some community)
      (List.range st1.ps.length).foldl
        (processSource cfg o time cellSize community hash) st1)
    st

/-! ## Exposed progression (source lines 546-562) -/

/-- Per-agent exposed-state update (source lines 547-561). -/
def exposedUpdate (cfg : Config) (p : Particle) : Particle :=
  if p.status = .exposed then
    let p1 := { p with timeInfected := p.timeInfected + 1 }
    if (p1.timeInfected : ℚ) > cfg.incubationPeriod then
      let p2 := { p1 with status := .infected, timeInfected := 0, willDie := none }
      if cfg.quarantineMode then
        { p2 with timeSinceInfected := some 0, quarantineEligible := none }
      else p2
    else p1
  else p

/-! ## One full simulation tick (the body of `for s in 0..speed`) -/

/-- All randomness consumed by one tick. -/
structure TickOracle where
  move : ℕ → MoveOracle
  inf : InfOracle

/-- The per-agent movement loop (source lines 213-487), agent by
agent. -/
def motionPhase (cfg : Config) (os : ℕ → MoveOracle) : ℕ → List Particle → List Particle
  | _, [] => []
  | i, p :: rest => updateAgent cfg (os i) p :: motionPhase cfg os (i + 1) rest

/-- One simulation tick (source lines 210-562): movement (with the
quarantine lifecycle), then the infection pass, then the exposed pass.
`time` is the already-incremented `timeRef.current`. -/
def tick (cfg : Config) (o : TickOracle) (time : ℕ) (st : SimState) : SimState :=
  let st1 : SimState := { st with ps := motionPhase cfg o.move 0 st.ps }
  let st2 := infectionPhase cfg o.inf time st1
  { st2 with ps := st2.ps.map (exposedUpdate cfg) }

/-! ## Snapshot aggregates (source lines 615-626) and the reproduction
estimator (source lines 631-647) -/

structure Counts where
  healthy : ℕ
  exposed : ℕ
  infected : ℕ
  recovered : ℕ
  dead : ℕ
  quarantined : ℕ
deriving DecidableEq, Repr

/-- One step of the aggregate count (source lines 623-626): a
quarantined particle is counted in the `quarantined` bucket instead of
its status bucket. -/
def countsStep (c : Counts) (p : Particle) : Counts :=
  if p.quarantined then { c with quarantined := c.quarantined + 1 }
  else match p.status with
    | .healthy => { c with healthy := c.healthy + 1 }
    | .exposed => { c with exposed := c.exposed + 1 }
    | .infected => { c with infected := c.infected + 1 }
    | .recovered => { c with recovered := c.recovered + 1 }
    | .dead => { c with dead := c.dead + 1 }

/-- The per-snapshot aggregate counts (source lines 615-626). -/
def countsOf (ps : List Particle) : Counts :=
  ps.foldl countsStep ⟨0, 0, 0, 0, 0, 0⟩

/-- The reproduction estimate `newRt` (source lines 631-647): discard
events older than the trailing 50-tick window, collect the distinct
infector indices of the remaining events, and average their current
per-episode counts. -/
def computeRt (events : List InfEvent) (counts : CountMap) (time : ℕ) : ℚ :=
  let windowSize : ℤ := 50
  let cutoff : ℤ := (time : ℤ) - windowSize
  let recentEvents := events.filter (fun e => decide (cutoff < (e.time : ℤ)))
  let activeInfectors := (recentEvents.map (fun e => e.infectorIndex)).dedup
  let totalInfections := (activeInfectors.map (fun idx => mapGet counts idx)).sum
  if activeInfectors.length > 0 then
    (totalInfections : ℚ) / activeInfectors.length
  else 0

/-! ## Derived notions used by the verification -/

/-- Reachability order on health statuses along the progression DAG
`healthy → exposed → infected → recovered / dead`. -/
def statusReach : Status → Status → Bool
  | .healthy, _ => true
  | .exposed, s => decide (s ≠ .healthy)
  | .infected, s => decide (s = .infected ∨ s = .recovered ∨ s = .dead)
  | .recovered, s => decide (s = .recovered)
  | .dead, s => decide (s = .dead)

/-- Pointwise region/flag invariant of the engine: the `quarantined`
flag is set exactly when the agent's current region is the quarantine
region, and the home region is always a normal region. -/
def regionFlagInv (p : Particle) : Prop :=
  (p.quarantined = true ↔ p.currentCommunity = QUARANTINE_COMMUNITY_IDX) ∧
  p.homeCommunity ≠ QUARANTINE_COMMUNITY_IDX

instance : DecidablePred regionFlagInv := fun p => by
  unfold regionFlagInv; infer_instance

/-- Number of agents whose current region is the quarantine region. -/
def countInQuarantineRegion (ps : List Particle) : ℕ :=
  ps.countP (fun p => decide (p.currentCommunity = QUARANTINE_COMMUNITY_IDX))

/-- Number of agents with the `quarantined` flag set (the code's notion
of the statuses Quarantined and EnRouteHome). -/
def countQuarantineFlagged (ps : List Particle) : ℕ :=
  ps.countP (fun p => p.quarantined)

/-- Number of agents in any of the three quarantine phases named by the
claim: pending `quarantineEntryAnim`, `quarantined` flag set, or
pending `goingHomeAnim`. -/
def countQuarantinePhases (ps : List Particle) : ℕ :=
  ps.countP (fun p =>
    decide (p.quarantineEntryAnim ≠ none) || p.quarantined ||
    decide (p.goingHomeAnim ≠ none))

/-- The reproduction estimate as the specification words it: the mean,
over the set of distinct source agents having at least one infection
event inside the trailing 50-tick window, of each source's recorded
per-episode infection count; `0` when that set is empty. -/
def specRt (events : List InfEvent) (counts : CountMap) (time : ℕ) : ℚ :=
  let sources : Finset ℕ :=
    ((events.filter (fun e => decide ((time : ℤ) - 50 < (e.time : ℤ)))).map
      (fun e => e.infectorIndex)).toFinset
  if sources.Nonempty then (∑ s ∈ sources, (mapGet counts s : ℚ)) / sources.card
  else 0

/-! ## Concrete states used by counterexamples and witnesses -/

/-- A healthy settled particle well inside community 0, with unit
velocity. -/
def baseParticle : Particle :=
  { x := 100, y := 100, vx := 1, vy := 1, status := .healthy, timeInfected := 0,
    willDie := none, infectionCount := some 0, homeCommunity := 0, currentCommunity := 0,
    isVisiting := false, isTravelling := false, travelTargetX := none, travelTargetY := none,
    travellingBack := false, visitTimeLeft := some 0, atCentre := false, centreTimeLeft := 0,
    quarantined := false, timeSinceInfected := none, quarantineEntryAnim := none,
    releasedFromQuarantine := false, quarantineEligible := none, goingHomeAnim := none }

/-- A movement oracle whose probability draws all fail (value `1`) and
whose perturbation draws are zero. -/
def baseOracle : MoveOracle :=
  { eligDraw := 1, entryTx := 600, entryTy := 600, homeDx := 0, homeDy := 0,
    sqrtFn := fun _ => 1, releaseVx := 1, releaseVy := 1, centreDraw := 1,
    centreDur := 30, centreExtra := 0, centreOffX := 0, centreOffY := 0,
    orbitDx := 0, orbitDy := 0, exitVx := 1, exitVy := 1, travTx := 0, travTy := 0,
    arrVx := 1, arrVy := 1, visitExtra := 0, brownDx := 0, brownDy := 0,
    travelDraw := 1, travelPick := 0 }

/-- Mid-range slider values (quarantine mode off). -/
def baseConfig : Config :=
  { incubationPeriod := 50, infectionRadius := 20, infectionProbability := 0.2,
    recoveryTime := 300, deathRate := 0.01, quarantineMode := false,
    quarantineEffectiveness := 70 }

/-- The same configuration with quarantine mode on. -/
def quarConfig : Config := { baseConfig with quarantineMode := true }

/-- An infection oracle whose contact draws fail. -/
def baseInfOracle : InfOracle := { deathDraw := fun _ => 1, infDraw := fun _ _ => 1 }

/-- An infection oracle whose contact draws always succeed and whose
`willDie` draws fail. -/
def hotInfOracle : InfOracle := { deathDraw := fun _ => 1, infDraw := fun _ _ => 0 }

def baseTickOracle : TickOracle := { move := fun _ => baseOracle, inf := baseInfOracle }

/-- An infected agent held in the quarantine region, long past every
progression deadline. -/
def qAgent : Particle :=
  { baseParticle with
      status := .infected, quarantined := true, currentCommunity := 8,
      timeInfected := 1000, willDie := some true, x := 600, y := 600 }

/-- An infected agent in community 0 long past every progression
deadline. -/
def sickAgent : Particle :=
  { baseParticle with
      status := .infected, timeInfected := 1000, willDie := some true }

/-- A dead, non-quarantined agent in community 0. -/
def deadAgent : Particle := { baseParticle with status := .dead }

/-- A recovered agent in community 0. -/
def recoveredAgent : Particle := { baseParticle with status := .recovered }

/-- An infected agent in EnRouteToQuarantine transit: pending entry
animation, still in its origin community 0, flag not yet set. -/
def entryAgent : Particle :=
  { baseParticle with
      status := .infected, quarantineEntryAnim := some (600, 600), vx := 0, vy := 0 }

/-- A healthy agent 5 length units away from `entryAgent`. -/
def nearbyHealthy : Particle := { baseParticle with x := 105 }

/-- A 500-agent snapshot state in which exactly one agent is
quarantined (as arises whenever quarantine mode has sent an agent to
the quarantine region). -/
def snapshotWithQuarantine : List Particle := qAgent :: List.replicate 499 baseParticle

/-- Sum of all six aggregate buckets of a snapshot. -/
def countsTotal (c : Counts) : ℕ :=
  c.healthy + c.exposed + c.infected + c.recovered + c.dead + c.quarantined

/-- Relation between a particle before and after the infection pass:
the status can only advance along the progression DAG, and the
quarantine flag and regions are untouched. -/
def infRel (p q : Particle) : Prop :=
  statusReach p.status q.status = true ∧
  q.quarantined = p.quarantined ∧
  q.currentCommunity = p.currentCommunity ∧
  q.homeCommunity = p.homeCommunity

/-- `infRel`, pointwise on particle lists of equal length. -/
def PtwiseInf (ps qs : List Particle) : Prop :=
  qs.length = ps.length ∧
  ∀ (i : ℕ) (p : Particle), ps[i]? = some p → ∃ q, qs[i]? = some q ∧ infRel p q

/-- The source filter of the transmission pass (the negation of the
`continue` guard at source line 495): current region equals the scanned
community, not quarantined, Infected.  It does not mention
`quarantineEntryAnim`. -/
def isTransmissionSource (p : Particle) (community : ℕ) : Prop :=
  p.currentCommunity = community ∧ p.quarantined = false ∧ p.status = .infected

/-! # Lemmas and theorems -/

set_option maxRecDepth 10000

theorem statusReach_refl (s : Status) : statusReach s s = true := by
  cases s <;> rfl

theorem statusReach_trans : ∀ a b c : Status,
    statusReach a b = true → statusReach b c = true → statusReach a c = true := by
  decide

theorem infRel_refl (p : Particle) : infRel p p :=
  ⟨statusReach_refl _, rfl, rfl, rfl⟩

theorem infRel_trans {p q r : Particle} (h1 : infRel p q) (h2 : infRel q r) :
    infRel p r :=
  ⟨statusReach_trans _ _ _ h1.1 h2.1, h2.2.1.trans h1.2.1,
   h2.2.2.1.trans h1.2.2.1, h2.2.2.2.trans h1.2.2.2⟩

theorem PtwiseInf_refl (ps : List Particle) : PtwiseInf ps ps :=
  ⟨rfl, fun _ p h => ⟨p, h, infRel_refl p⟩⟩

theorem PtwiseInf_trans {ps qs rs : List Particle}
    (h1 : PtwiseInf ps qs) (h2 : PtwiseInf qs rs) : PtwiseInf ps rs := by
  refine ⟨h2.1.trans h1.1, fun i p hp => ?_⟩
  obtain ⟨q, hq, hpq⟩ := h1.2 i p hp
  obtain ⟨r, hr, hqr⟩ := h2.2 i q hq
  exact ⟨r, hr, infRel_trans hpq hqr⟩

theorem PtwiseInf_set {ps : List Particle} {j : ℕ} {p q : Particle}
    (hj : ps[j]? = some p) (hrel : infRel p q) : PtwiseInf ps (ps.set j q) := by
  refine ⟨by simp, fun i r hr => ?_⟩
  by_cases hij : j = i
  · subst hij
    have hlt : j < ps.length := by
      by_contra hge
      rw [List.getElem?_eq_none (Nat.le_of_not_lt hge)] at hj
      exact Option.noConfusion hj
    have hrp : r = p := by
      rw [hj] at hr; exact ((Option.some.injEq _ _).mp hr.symm)
    rw [List.getElem?_set_self hlt]
    exact ⟨q, rfl, hrp ▸ hrel⟩
  · rw [List.getElem?_set_ne hij]
    exact ⟨r, hr, infRel_refl r⟩

theorem foldl_ptwise {α : Type} (f : SimState → α → SimState)
    (hf : ∀ st a, PtwiseInf st.ps (f st a).ps) :
    ∀ (l : List α) (st : SimState), PtwiseInf st.ps (l.foldl f st).ps := by
  intro l
  induction l with
  | nil => intro st; exact PtwiseInf_refl _
  | cons a l ih =>
    intro st
    exact PtwiseInf_trans (hf st a) (ih (f st a))

theorem processPair_ptwise (cfg : Config) (o : InfOracle) (time i : ℕ) (src : Particle)
    (st : SimState) (j : ℕ) :
    PtwiseInf st.ps (processPair cfg o time i src st j).ps := by
  unfold processPair
  split
  · exact PtwiseInf_refl _
  split
  · exact PtwiseInf_refl _
  next other hother =>
    dsimp only
    split_ifs with h1 h2 h3 h4
    any_goals exact PtwiseInf_refl _
    refine PtwiseInf_set hother ⟨?_, rfl, rfl, rfl⟩
    have hh : other.status = .healthy := not_not.mp h1
    rw [hh]; rfl

theorem processSource_ptwise (cfg : Config) (o : InfOracle) (time : ℕ) (cellSize : ℚ)
    (community : ℕ) (hash : CellKey → List ℕ) (st : SimState) (i : ℕ) :
    PtwiseInf st.ps (processSource cfg o time cellSize community hash st i).ps := by
  unfold processSource
  split
  · exact PtwiseInf_refl _
  next p hp =>
    split
    · exact PtwiseInf_refl _
    next hfilter =>
      have hstat : p.status = .infected := by
        rcases not_or.mp hfilter with ⟨-, h2⟩
        rcases not_or.mp h2 with ⟨-, h3⟩
        exact not_not.mp h3
      dsimp only
      split_ifs with hd hdie hrec hdie2 hrec2 <;>
        first
        | (refine PtwiseInf_set hp ⟨?_, rfl, rfl, rfl⟩; rw [hstat]; rfl)
        | (refine PtwiseInf_trans ?_ (foldl_ptwise _ (fun st3 c => foldl_ptwise _
              (fun st4 j => processPair_ptwise cfg o time i _ st4 j) _ st3) _ _)
           exact PtwiseInf_set hp ⟨statusReach_refl _, rfl, rfl, rfl⟩)

theorem infectionPhase_ptwise (cfg : Config) (o : InfOracle) (time : ℕ) (st : SimState) :
    PtwiseInf st.ps (infectionPhase cfg o time st).ps := by
  unfold infectionPhase
  exact foldl_ptwise _
    (fun st1 community => foldl_ptwise _
      (fun st2 i => processSource_ptwise cfg o time _ community _ st2 i) _ st1) _ st

/-- Fields of a particle that one normal-motion sub-step may not alter
(status, quarantine flag, home), plus the admissible moves of the
current region: kept, reset to home, or a fresh normal region. -/
def MotionFields (p q : Particle) : Prop :=
  q.status = p.status ∧ q.quarantined = p.quarantined ∧
  q.homeCommunity = p.homeCommunity ∧
  (q.currentCommunity = p.currentCommunity ∨ q.currentCommunity = p.homeCommunity ∨
   q.currentCommunity < 8)

theorem MotionFields_refl (p : Particle) : MotionFields p p :=
  ⟨rfl, rfl, rfl, Or.inl rfl⟩

theorem MotionFields_trans {p q r : Particle} (h1 : MotionFields p q)
    (h2 : MotionFields q r) : MotionFields p r := by
  obtain ⟨s1, q1, hh1, c1⟩ := h1
  obtain ⟨s2, q2, hh2, c2⟩ := h2
  refine ⟨s2.trans s1, q2.trans q1, hh2.trans hh1, ?_⟩
  rcases c2 with h | h | h
  · rw [h]; exact c1
  · rw [h, hh1]; exact Or.inr (Or.inl rfl)
  · exact Or.inr (Or.inr h)

theorem bounceStep_fields (bounds : Bounds) (p : Particle) :
    MotionFields p (bounceStep bounds p) := by
  unfold bounceStep
  dsimp only
  repeat' split
  all_goals exact ⟨rfl, rfl, rfl, Or.inl rfl⟩

theorem centreEntry_fields (o : MoveOracle) (bounds : Bounds) (p : Particle) :
    MotionFields p (centreEntry o bounds p) := by
  unfold centreEntry
  split <;> exact ⟨rfl, rfl, rfl, Or.inl rfl⟩

theorem centreMotion_fields (o : MoveOracle) (bounds : Bounds) (p : Particle) :
    MotionFields p (centreMotion o bounds p) := by
  simp only [centreMotion]
  split <;> exact ⟨rfl, rfl, rfl, Or.inl rfl⟩

theorem brownianStep_fields (o : MoveOracle) (bounds : Bounds) (p : Particle) :
    MotionFields p (brownianStep o bounds p) := by
  unfold brownianStep
  dsimp only
  repeat' split
  all_goals exact ⟨rfl, rfl, rfl, Or.inl rfl⟩

theorem visitExpiry_fields (p : Particle) : MotionFields p (visitExpiry p) := by
  unfold visitExpiry
  dsimp only
  repeat' split
  all_goals first
  | exact ⟨rfl, rfl, rfl, Or.inl rfl⟩
  | exact ⟨rfl, rfl, rfl, Or.inr (Or.inl rfl)⟩

theorem travelStep_fields (o : MoveOracle) (p : Particle) :
    MotionFields p (travelStep o p) := by
  unfold travelStep
  dsimp only
  repeat' split
  all_goals first
  | exact ⟨rfl, rfl, rfl, Or.inl rfl⟩
  | exact ⟨rfl, rfl, rfl, Or.inr (Or.inl rfl)⟩

theorem travelInit_fields (o : MoveOracle) (p : Particle) :
    MotionFields p (travelInit o p) := by
  unfold travelInit
  dsimp only
  split
  · split
    · refine ⟨rfl, rfl, rfl, Or.inr (Or.inr ?_)⟩
      set l := (List.range NORMAL_COMMUNITIES).filter
        (fun ci => decide (ci ≠ p.homeCommunity)) with hl
      rw [List.getD_eq_getElem?_getD]
      rcases hg : l[o.travelPick % l.length]? with _ | x
      · simp
      · have hx : x ∈ l := List.getElem?_mem hg
        have hx8 : x < NORMAL_COMMUNITIES := by
          have := List.mem_filter.mp (hl ▸ hx)
          exact List.mem_range.mp this.1
        simpa using hx8
    · exact MotionFields_refl _
  · exact MotionFields_refl _

theorem normalMotion_fields (o : MoveOracle) (p : Particle) :
    MotionFields p (normalMotion o p) := by
  unfold normalMotion
  have h3 : MotionFields p
      (centreEntry o (cbounds p.currentCommunity) (bounceStep (cbounds p.currentCommunity) p)) :=
    MotionFields_trans (bounceStep_fields _ _) (centreEntry_fields _ _ _)
  dsimp only
  split
  · exact MotionFields_trans h3 (centreMotion_fields _ _ _)
  · split
    · exact MotionFields_trans h3 (travelStep_fields _ _)
    · exact MotionFields_trans h3 (MotionFields_trans (brownianStep_fields _ _ _)
        (MotionFields_trans (travelInit_fields _ _) (visitExpiry_fields _)))

/-- Fields that every quarantine-lifecycle stage leaves unchanged. -/
def QlFields (p q : Particle) : Prop :=
  q.status = p.status ∧ q.quarantined = p.quarantined ∧
  q.currentCommunity = p.currentCommunity ∧ q.homeCommunity = p.homeCommunity

theorem QlFields_refl (p : Particle) : QlFields p p := ⟨rfl, rfl, rfl, rfl⟩

theorem QlFields_trans {p q r : Particle} (h1 : QlFields p q) (h2 : QlFields q r) :
    QlFields p r :=
  ⟨h2.1.trans h1.1, h2.2.1.trans h1.2.1, h2.2.2.1.trans h1.2.2.1, h2.2.2.2.trans h1.2.2.2⟩

theorem qlStartClock_fields (p : Particle) : QlFields p (qlStartClock p) := by
  unfold qlStartClock; split <;> exact ⟨rfl, rfl, rfl, rfl⟩

theorem qlEligibility_fields (cfg : Config) (o : MoveOracle) (p : Particle) :
    QlFields p (qlEligibility cfg o p) := by
  unfold qlEligibility; split <;> exact ⟨rfl, rfl, rfl, rfl⟩

theorem qlDetection_fields (o : MoveOracle) (p : Particle) :
    QlFields p (qlDetection o p) := by
  unfold qlDetection
  dsimp only
  repeat' split
  all_goals exact ⟨rfl, rfl, rfl, rfl⟩

theorem qlCount_fields (p : Particle) : QlFields p (qlCount p) := by
  unfold qlCount; split <;> exact ⟨rfl, rfl, rfl, rfl⟩

theorem qlRelease_fields (o : MoveOracle) (p : Particle) :
    QlFields p (qlRelease o p) := by
  unfold qlRelease
  dsimp only
  split <;> exact ⟨rfl, rfl, rfl, rfl⟩

theorem quarantineLifecycle_fields (cfg : Config) (o : MoveOracle) (p : Particle) :
    QlFields p (quarantineLifecycle cfg o p) := by
  unfold quarantineLifecycle
  split
  · exact QlFields_trans (qlStartClock_fields p)
      (QlFields_trans (qlEligibility_fields cfg o _)
        (QlFields_trans (qlDetection_fields o _)
          (QlFields_trans (qlCount_fields _) (qlRelease_fields o _))))
  · exact QlFields_refl p

theorem motionBody_status (o : MoveOracle) (q : Particle) :
    (motionBody o q).status = q.status := by
  unfold motionBody
  split
  · dsimp only
    split <;> rfl
  split
  · dsimp only
    split <;> rfl
  split
  · rfl
  · exact (normalMotion_fields o _).1

theorem updateAgent_status (cfg : Config) (o : MoveOracle) (p : Particle) :
    (updateAgent cfg o p).status = p.status := by
  unfold updateAgent
  rw [motionBody_status, (quarantineLifecycle_fields cfg o p).1]

theorem motionBody_inv (o : MoveOracle) (q : Particle) (h : regionFlagInv q) :
    regionFlagInv (motionBody o q) := by
  unfold motionBody
  split
  · -- quarantine-entry transit
    dsimp only
    split
    · exact ⟨by simp, h.2⟩
    · exact h
  split
  · -- going-home transit
    dsimp only
    split
    · refine ⟨⟨fun hh => absurd hh (by simp), fun hh => absurd hh h.2⟩, h.2⟩
    · exact h
  split
  · exact h
  next hq2 =>
    -- normal motion with the flag down
    have hq : q.quarantined = false := by
      cases hqq : q.quarantined
      · rfl
      · exact absurd hqq hq2
    obtain ⟨hs, hqr, hh, hc⟩ := normalMotion_fields o q
    have hcomm : q.currentCommunity ≠ QUARANTINE_COMMUNITY_IDX := by
      intro h8
      exact Bool.false_ne_true (hq ▸ h.1.mpr h8)
    refine ⟨?_, hh ▸ h.2⟩
    rw [hqr, hq]
    constructor
    · intro hh2; exact absurd hh2 Bool.false_ne_true
    · intro h8
      rcases hc with h1 | h1 | h1
      · exact absurd (h1 ▸ h8) hcomm
      · exact absurd (h1 ▸ h8) (hh ▸ h.2)
      · rw [h8] at h1; exact absurd h1 (by norm_num [QUARANTINE_COMMUNITY_IDX])

theorem updateAgent_inv (cfg : Config) (o : MoveOracle) (p : Particle)
    (h : regionFlagInv p) : regionFlagInv (updateAgent cfg o p) := by
  unfold updateAgent
  apply motionBody_inv
  obtain ⟨-, hq, hc, hh⟩ := quarantineLifecycle_fields cfg o p
  exact ⟨by rw [hq, hc]; exact h.1, by rw [hh]; exact h.2⟩

theorem motionPhase_getElem (cfg : Config) (os : ℕ → MoveOracle) :
    ∀ (ps : List Particle) (n i : ℕ),
      (motionPhase cfg os n ps)[i]? =
        (ps[i]?).map (fun p => updateAgent cfg (os (n + i)) p) := by
  intro ps
  induction ps with
  | nil => intro n i; simp [motionPhase]
  | cons p rest ih =>
    intro n i
    cases i with
    | zero => simp [motionPhase]
    | succ k =>
      simp only [motionPhase, List.getElem?_cons_succ]
      rw [ih (n + 1) k]
      have harith : n + 1 + k = n + (k + 1) := by omega
      rw [harith]

theorem motionPhase_length (cfg : Config) (os : ℕ → MoveOracle) :
    ∀ (ps : List Particle) (n : ℕ), (motionPhase cfg os n ps).length = ps.length := by
  intro ps
  induction ps with
  | nil => intro n; rfl
  | cons p rest ih => intro n; simp [motionPhase, ih]

theorem exposedUpdate_infRel (cfg : Config) (p : Particle) :
    infRel p (exposedUpdate cfg p) := by
  unfold exposedUpdate
  dsimp only
  split_ifs with h1 h2 h3 <;>
    first
    | exact infRel_refl _
    | exact ⟨statusReach_refl _, rfl, rfl, rfl⟩
    | exact ⟨by rw [h1]; rfl, rfl, rfl, rfl⟩

theorem regionFlagInv_of_infRel {p q : Particle} (hrel : infRel p q)
    (h : regionFlagInv p) : regionFlagInv q := by
  obtain ⟨-, hq, hc, hh⟩ := hrel
  exact ⟨by rw [hq, hc]; exact h.1, by rw [hh]; exact h.2⟩

theorem tick_length (cfg : Config) (o : TickOracle) (time : ℕ) (st : SimState) :
    (tick cfg o time st).ps.length = st.ps.length := by
  unfold tick
  dsimp only
  rw [List.length_map]
  rw [(infectionPhase_ptwise cfg o.inf time
    ⟨motionPhase cfg o.move 0 st.ps, st.events, st.counts⟩).1]
  exact motionPhase_length cfg o.move st.ps 0

theorem tick_status_reach (cfg : Config) (o : TickOracle) (time : ℕ) (st : SimState)
    (i : ℕ) (p : Particle) (hp : st.ps[i]? = some p) :
    ∃ q, (tick cfg o time st).ps[i]? = some q ∧ statusReach p.status q.status = true := by
  unfold tick
  dsimp only
  have h1 : (motionPhase cfg o.move 0 st.ps)[i]? = some (updateAgent cfg (o.move i) p) := by
    rw [motionPhase_getElem, hp]
    simp
  obtain ⟨q2, hq2, hrel⟩ := (infectionPhase_ptwise cfg o.inf time
    ⟨motionPhase cfg o.move 0 st.ps, st.events, st.counts⟩).2 i _ h1
  refine ⟨exposedUpdate cfg q2, ?_, ?_⟩
  · rw [List.getElem?_map, hq2]; rfl
  · have e1 := updateAgent_status cfg (o.move i) p
    have r1 : statusReach p.status q2.status = true := by
      have := hrel.1
      rwa [e1] at this
    exact statusReach_trans _ _ _ r1 (exposedUpdate_infRel cfg q2).1

theorem tick_inv (cfg : Config) (o : TickOracle) (time : ℕ) (st : SimState)
    (h : ∀ p ∈ st.ps, regionFlagInv p) :
    ∀ q ∈ (tick cfg o time st).ps, regionFlagInv q := by
  intro q hq
  unfold tick at hq
  dsimp only at hq
  obtain ⟨q2, hq2mem, hq2⟩ := List.mem_map.mp hq
  obtain ⟨i, hi⟩ := List.getElem?_of_mem hq2mem
  have hlen : ((infectionPhase cfg o.inf time
      ⟨motionPhase cfg o.move 0 st.ps, st.events, st.counts⟩).ps).length =
      (motionPhase cfg o.move 0 st.ps).length := (infectionPhase_ptwise cfg o.inf time
    ⟨motionPhase cfg o.move 0 st.ps, st.events, st.counts⟩).1
  have hilt : i < (motionPhase cfg o.move 0 st.ps).length := by
    have : i < ((infectionPhase cfg o.inf time
        ⟨motionPhase cfg o.move 0 st.ps, st.events, st.counts⟩).ps).length := by
      by_contra hge
      rw [List.getElem?_eq_none (Nat.le_of_not_lt hge)] at hi
      exact Option.noConfusion hi
    omega
  have hip : i < st.ps.length := by
    rw [motionPhase_length] at hilt; exact hilt
  have hpel : st.ps[i]? = some st.ps[i] := List.getElem?_eq_getElem hip
  have h1 : (motionPhase cfg o.move 0 st.ps)[i]? =
      some (updateAgent cfg (o.move i) st.ps[i]) := by
    rw [motionPhase_getElem, hpel]
    simp
  obtain ⟨q3, hq3, hrel⟩ := (infectionPhase_ptwise cfg o.inf time
    ⟨motionPhase cfg o.move 0 st.ps, st.events, st.counts⟩).2 i _ h1
  have hq23 : q3 = q2 := by
    rw [hi] at hq3
    exact ((Option.some.injEq _ _).mp hq3).symm
  have hinv1 : regionFlagInv st.ps[i] := h _ (List.getElem_mem hip)
  have hinv2 : regionFlagInv (updateAgent cfg (o.move i) st.ps[i]) :=
    updateAgent_inv cfg (o.move i) _ hinv1
  have hinv3 : regionFlagInv q2 := hq23 ▸ regionFlagInv_of_infRel hrel hinv2
  rw [← hq2]
  exact regionFlagInv_of_infRel (exposedUpdate_infRel cfg q2) hinv3

/-! ## Claim C7 — region layout error handling -/

/-- **C7 counterexample**: `-1` is an index outside `0..7` other than
the reserved quarantine index `8`, yet `getCommunityBounds` succeeds on
it (the source only throws for `idx > 7`, after the `idx === 8` early
return), refuting the claim that every such index fails. -/
theorem claim7_counterexample :
    (-1 : ℤ) < 0 ∧ (-1 : ℤ) ≠ 8 ∧ (getCommunityBounds (-1)).isOk = true := by
  refine ⟨by norm_num, by norm_num, ?_⟩
  with_unfolding_all decide

/-- **C7 (amended)**: the region layout function is a deterministic
pure function of static constants that fails (throws) precisely on the
indices greater than `8`; every index `≤ 8` — including the negative
ones, which the source does not guard against — returns bounds, and the
indices `0..8` receive the fixed grid rectangles, region 8 occupying
the bottom-right cell (its specially-computed bounds coincide with the
grid formula at index 8). -/
theorem claim7_layout :
    (∀ idx : ℤ, (getCommunityBounds idx).isOk = true ↔ idx ≤ 8) ∧
    (∀ idx : ℤ, 0 ≤ idx → idx ≤ 8 → getCommunityBounds idx = .ok (gridCellBounds idx)) ∧
    quarantineBounds = gridCellBounds 8 := by
  have hqb : quarantineBounds = gridCellBounds 8 := by with_unfolding_all decide
  refine ⟨?_, ?_, hqb⟩
  · intro idx
    unfold getCommunityBounds
    split_ifs with h1 h2
    · have h1a : idx = 8 := by norm_num [QUARANTINE_COMMUNITY_IDX] at h1; exact h1
      clear h1
      simp only [h1a]
      norm_num [Except.isOk, Except.toBool]
    · have h1a : idx ≠ 8 := by norm_num [QUARANTINE_COMMUNITY_IDX] at h1; exact h1
      clear h1
      simp only [Except.isOk, Except.toBool]
      constructor
      · intro hfalse; exact absurd hfalse (by norm_num)
      · intro hle; omega
    · have h2a : idx ≤ 7 := by omega
      clear h1 h2
      simp only [Except.isOk, Except.toBool]
      constructor
      · intro htrue; omega
      · intro hle; trivial
  · intro idx h0 h8
    unfold getCommunityBounds
    split_ifs with h1 h2
    · have h1a : idx = 8 := by norm_num [QUARANTINE_COMMUNITY_IDX] at h1; exact h1
      clear h1
      rw [hqb, h1a]
    · have h1a : idx ≠ 8 := by norm_num [QUARANTINE_COMMUNITY_IDX] at h1; exact h1
      clear h1
      omega
    · rfl

/-- Witness for `claim7_layout` at the concrete index `5`. -/
theorem claim7_layout_witness :
    (getCommunityBounds 5).isOk = true ∧
    getCommunityBounds 5 = .ok (gridCellBounds 5) :=
  ⟨(claim7_layout.1 5).mpr (by norm_num),
   claim7_layout.2.1 5 (by norm_num) (by norm_num)⟩

/-! ## Claim C4 — snapshot count conservation -/

/-- **C4 counterexample**: in the 500-agent snapshot
`snapshotWithQuarantine` — the kind of state quarantine mode produces
as soon as one agent has arrived in the quarantine region — the five
per-status aggregate counts sum to 499, not to the fixed total 500,
because the code counts a quarantined agent only under `quarantined`
and not under its health status. -/
theorem claim4_counterexample :
    snapshotWithQuarantine.length = PARTICLE_COUNT ∧
    (countsOf snapshotWithQuarantine).quarantined = 1 ∧
    (countsOf snapshotWithQuarantine).healthy + (countsOf snapshotWithQuarantine).exposed +
      (countsOf snapshotWithQuarantine).infected +
      (countsOf snapshotWithQuarantine).recovered +
      (countsOf snapshotWithQuarantine).dead ≠ PARTICLE_COUNT := by
  refine ⟨?_, ?_, ?_⟩ <;> with_unfolding_all decide

theorem countsStep_total (c : Counts) (p : Particle) :
    countsTotal (countsStep c p) = countsTotal c + 1 := by
  unfold countsStep countsTotal
  split
  · dsimp only; omega
  · split <;> (dsimp only; omega)

theorem countsOf_go (ps : List Particle) :
    ∀ c : Counts, countsTotal (ps.foldl countsStep c) = countsTotal c + ps.length := by
  induction ps with
  | nil => intro c; simp
  | cons p rest ih =>
    intro c
    simp only [List.foldl_cons, List.length_cons, ih (countsStep c p), countsStep_total]
    omega

/-- **C4 (amended)**: in every emitted snapshot the five per-status
counts **plus the quarantined count** sum to the number of agents (a
quarantined agent is counted only under `quarantined`, so the five
per-status counts alone sum to the total minus the quarantined count);
the agent count itself is fixed: the initial population has exactly
`PARTICLE_COUNT = 500` agents and every tick preserves the length of
the agent list. -/
theorem claim4_conservation :
    (∀ ps : List Particle, countsTotal (countsOf ps) = ps.length) ∧
    (∀ (o : ℕ → InitDraw) (k : ℕ), (initialState o PARTICLE_COUNT k).length = PARTICLE_COUNT) ∧
    (∀ (cfg : Config) (o : TickOracle) (time : ℕ) (st : SimState),
      (tick cfg o time st).ps.length = st.ps.length) := by
  refine ⟨?_, ?_, fun cfg o time st => tick_length cfg o time st⟩
  · intro ps
    have h := countsOf_go ps ⟨0, 0, 0, 0, 0, 0⟩
    unfold countsOf
    rw [h]
    simp [countsTotal]
  · intro o k
    unfold initialState
    simp

/-! ## Claim C1 — infected progression vs quarantine -/

/-- **C1** (code bug): the infected-progression update (source lines
496-511) is fused into the per-community transmission loop and guarded
by `p.currentCommunity === community && !p.quarantined` for
`community` in `0..7` (source line 495), so it is *not* evaluated for
a quarantined agent or an agent in the quarantine region.  One full
tick leaves the quarantined Infected agent `qAgent` — whose
`timeInfected = 1000` exceeds every deadline of the configured recovery
duration 300, with `willDie = true` — still Infected with
`timeInfected` unchanged, while the identical but non-quarantined
`sickAgent` in region 0 transitions to Dead on the same tick. -/
theorem claim1_progression_skips_quarantined :
    qAgent.quarantined = true ∧ qAgent.willDie = some true ∧
    ((qAgent.timeInfected : ℚ) > quarConfig.recoveryTime / 2) ∧
    ((tick quarConfig baseTickOracle 1 ⟨[qAgent], [], []⟩).ps.map
      (fun p => (p.status, p.timeInfected))) = [(.infected, 1000)] ∧
    ((tick quarConfig baseTickOracle 1 ⟨[sickAgent], [], []⟩).ps.map
      Particle.status) = [.dead] := by
  refine ⟨rfl, rfl, ?_, ?_, ?_⟩ <;> with_unfolding_all decide

/-! ## Claim C2 — Dead agents and the motion rules -/

theorem setStatus_self (q : Particle) (s : Status) (h : q.status = s) :
    ({ q with status := s } : Particle) = q := by
  cases q
  subst h
  rfl

theorem bounceStep_setStatus (b : Bounds) (p : Particle) (s : Status) :
    bounceStep b { p with status := s } = { bounceStep b p with status := s } := by
  unfold bounceStep
  dsimp only
  split_ifs <;> rfl

theorem centreEntry_setStatus (o : MoveOracle) (b : Bounds) (p : Particle) (s : Status) :
    centreEntry o b { p with status := s } = { centreEntry o b p with status := s } := by
  unfold centreEntry
  dsimp only
  split_ifs <;> rfl

theorem centreMotion_setStatus (o : MoveOracle) (b : Bounds) (p : Particle) (s : Status) :
    centreMotion o b { p with status := s } = { centreMotion o b p with status := s } := by
  simp only [centreMotion]
  split_ifs <;> rfl

theorem travelStep_setStatus (o : MoveOracle) (p : Particle) (s : Status) :
    travelStep o { p with status := s } = { travelStep o p with status := s } := by
  unfold travelStep
  dsimp only
  split_ifs <;> rfl

theorem brownianStep_setStatus (o : MoveOracle) (b : Bounds) (p : Particle) (s : Status) :
    brownianStep o b { p with status := s } = { brownianStep o b p with status := s } := by
  unfold brownianStep
  dsimp only
  split_ifs <;> rfl

theorem travelInit_setStatus (o : MoveOracle) (p : Particle) (s : Status) :
    travelInit o { p with status := s } = { travelInit o p with status := s } := by
  unfold travelInit
  dsimp only
  split_ifs <;> rfl

theorem visitExpiry_setStatus (p : Particle) (s : Status) :
    visitExpiry { p with status := s } = { visitExpiry p with status := s } := by
  obtain ⟨x, y, vx, vy, st, ti, wd, ic, hc, cc, iv, it, ttx, tty, tb, vtl, ac, ctl,
    qf, tsi, qea, rfq, qe, gha⟩ := p
  unfold visitExpiry
  dsimp only
  cases vtl with
  | none =>
    dsimp only
    repeat' split
    all_goals rfl
  | some v =>
    dsimp only
    repeat' split
    all_goals rfl

theorem normalMotion_setStatus (o : MoveOracle) (p : Particle) (s : Status) :
    normalMotion o { p with status := s } = { normalMotion o p with status := s } := by
  unfold normalMotion
  dsimp only
  rw [bounceStep_setStatus, centreEntry_setStatus]
  dsimp only
  split_ifs with h1 h2
  · rw [centreMotion_setStatus]
  · rw [travelStep_setStatus]
  · rw [brownianStep_setStatus, travelInit_setStatus, visitExpiry_setStatus]

theorem motionBody_setStatus (o : MoveOracle) (p : Particle) (s : Status) :
    motionBody o { p with status := s } = { motionBody o p with status := s } := by
  obtain ⟨x, y, vx, vy, st, ti, wd, ic, hc, cc, iv, it, ttx, tty, tb, vtl, ac, ctl,
    qf, tsi, qea, rfq, qe, gha⟩ := p
  unfold motionBody
  dsimp only
  cases qea with
  | some t =>
    dsimp only
    split_ifs <;> rfl
  | none =>
    cases gha with
    | some t =>
      dsimp only
      split_ifs <;> rfl
    | none =>
      dsimp only
      split_ifs with h
      · rfl
      · exact normalMotion_setStatus o
          ⟨x, y, vx, vy, st, ti, wd, ic, hc, cc, iv, it, ttx, tty, tb, vtl, ac, ctl,
           qf, tsi, none, rfq, qe, none⟩ s

theorem quarantineLifecycle_id (cfg : Config) (o : MoveOracle) (p : Particle)
    (hq : p.quarantined = false) (hs : p.status = .dead ∨ p.status = .healthy) :
    quarantineLifecycle cfg o p = p := by
  have h1 : qlStartClock p = p := by
    unfold qlStartClock
    rw [if_neg]
    rcases hs with h | h <;> simp [h]
  have h2 : qlEligibility cfg o p = p := by
    unfold qlEligibility
    rw [if_neg]
    rcases hs with h | h <;> simp [h]
  have h3 : qlDetection o p = p := by
    unfold qlDetection
    rw [if_neg]
    rcases hs with h | h <;> simp [h]
  have h4 : qlCount p = p := by
    unfold qlCount
    rw [if_neg]
    simp [hq]
  have h5 : qlRelease o p = p := by
    unfold qlRelease
    rw [if_neg]
    simp [hq]
  unfold quarantineLifecycle
  split
  · rw [h1, h2, h3, h4, h5]
  · rfl

theorem motionBody_frozen (o : MoveOracle) (q : Particle)
    (he : q.quarantineEntryAnim = none) (hg : q.goingHomeAnim = none)
    (hq : q.quarantined = true) : motionBody o q = q := by
  unfold motionBody
  rw [he, hg]
  dsimp only
  simp [hq]

/-- Position, velocity and transit-animation fields untouched by the
bookkeeping stages of the quarantine lifecycle. -/
def FrozenFields (p q : Particle) : Prop :=
  q.x = p.x ∧ q.y = p.y ∧ q.vx = p.vx ∧ q.vy = p.vy ∧
  q.quarantineEntryAnim = p.quarantineEntryAnim ∧ q.goingHomeAnim = p.goingHomeAnim

theorem FrozenFields_refl (p : Particle) : FrozenFields p p :=
  ⟨rfl, rfl, rfl, rfl, rfl, rfl⟩

theorem FrozenFields_trans {p q r : Particle} (h1 : FrozenFields p q)
    (h2 : FrozenFields q r) : FrozenFields p r :=
  ⟨h2.1.trans h1.1, h2.2.1.trans h1.2.1, h2.2.2.1.trans h1.2.2.1,
   h2.2.2.2.1.trans h1.2.2.2.1, h2.2.2.2.2.1.trans h1.2.2.2.2.1,
   h2.2.2.2.2.2.trans h1.2.2.2.2.2⟩

theorem qlStartClock_frozen (p : Particle) : FrozenFields p (qlStartClock p) := by
  unfold qlStartClock
  split <;> exact ⟨rfl, rfl, rfl, rfl, rfl, rfl⟩

theorem qlEligibility_frozen (cfg : Config) (o : MoveOracle) (p : Particle) :
    FrozenFields p (qlEligibility cfg o p) := by
  unfold qlEligibility
  split <;> exact ⟨rfl, rfl, rfl, rfl, rfl, rfl⟩

theorem qlCount_frozen (p : Particle) : FrozenFields p (qlCount p) := by
  unfold qlCount
  split <;> exact ⟨rfl, rfl, rfl, rfl, rfl, rfl⟩

theorem qlDetection_id_of_quarantined (o : MoveOracle) (p : Particle)
    (hq : p.quarantined = true) : qlDetection o p = p := by
  unfold qlDetection
  rw [if_neg]
  intro hc
  rw [hq] at hc
  exact Bool.noConfusion hc.2.2.1

theorem qlRelease_id_of_infected (o : MoveOracle) (p : Particle)
    (hs : p.status = .infected) : qlRelease o p = p := by
  unfold qlRelease
  rw [if_neg]
  intro hc
  rcases hc.2.1 with h | h <;> rw [hs] at h <;> exact Status.noConfusion h

/-- **C2 counterexample**: `deadAgent` is Dead, not quarantined, and
not in any transit, yet one motion update moves it: Brownian motion
advances its position from `(100, 100)` to `(101, 101)` (velocity
`(1, 1)`, zero perturbation draws). -/
theorem claim2_counterexample :
    deadAgent.status = .dead ∧ deadAgent.quarantined = false ∧
    deadAgent.quarantineEntryAnim = none ∧ deadAgent.goingHomeAnim = none ∧
    deadAgent.x = 100 ∧ deadAgent.y = 100 ∧
    (updateAgent baseConfig baseOracle deadAgent).x = 101 ∧
    (updateAgent baseConfig baseOracle deadAgent).y = 101 := by
  refine ⟨rfl, rfl, rfl, rfl, rfl, rfl, ?_, ?_⟩ <;> with_unfolding_all decide

/-- **C2 (amended)**: the motion rules are blind to Dead status rather
than skipping Dead agents: (a) a Dead, non-quarantined agent is moved
by exactly the same rules as a Healthy agent in the same state (the
update commutes with replacing the status), and (b) only a quarantined
agent that is in no transit and not triggering release (quarantine mode
off, or still Infected) is guaranteed stationary: its position and
velocity are unchanged by the motion update. -/
theorem claim2_motion :
    (∀ (cfg : Config) (o : MoveOracle) (p : Particle),
      p.status = .dead → p.quarantined = false →
      updateAgent cfg o p =
        { updateAgent cfg o { p with status := .healthy } with status := .dead }) ∧
    (∀ (cfg : Config) (o : MoveOracle) (p : Particle),
      p.quarantined = true → p.quarantineEntryAnim = none → p.goingHomeAnim = none →
      (cfg.quarantineMode = false ∨ p.status = .infected) →
      (updateAgent cfg o p).x = p.x ∧ (updateAgent cfg o p).y = p.y ∧
      (updateAgent cfg o p).vx = p.vx ∧ (updateAgent cfg o p).vy = p.vy) := by
  constructor
  · intro cfg o p hd hq
    have hq2 : ({ p with status := Status.healthy } : Particle).quarantined = false := hq
    unfold updateAgent
    rw [quarantineLifecycle_id cfg o p hq (Or.inl hd),
        quarantineLifecycle_id cfg o _ hq2 (Or.inr rfl),
        motionBody_setStatus o p .healthy]
    show motionBody o p = { motionBody o p with status := .dead }
    exact (setStatus_self (motionBody o p) .dead
      (by rw [motionBody_status]; exact hd)).symm
  · intro cfg o p hq he hg hmode
    unfold updateAgent
    rcases hmm : cfg.quarantineMode with _ | _
    · have hid : quarantineLifecycle cfg o p = p := by
        unfold quarantineLifecycle
        simp [hmm]
      rw [hid, motionBody_frozen o p he hg hq]
      exact ⟨rfl, rfl, rfl, rfl⟩
    · have hs : p.status = .infected := by
        rcases hmode with hm | hs
        · rw [hmm] at hm; exact absurd hm (by simp)
        · exact hs
      have hq1 : (qlStartClock p).quarantined = p.quarantined := (qlStartClock_fields p).2.1
      have hs1 : (qlStartClock p).status = p.status := (qlStartClock_fields p).1
      have hq2 : (qlEligibility cfg o (qlStartClock p)).quarantined = p.quarantined :=
        ((qlEligibility_fields cfg o _).2.1).trans hq1
      have hs2 : (qlEligibility cfg o (qlStartClock p)).status = p.status :=
        ((qlEligibility_fields cfg o _).1).trans hs1
      have hdet : qlDetection o (qlEligibility cfg o (qlStartClock p)) =
          qlEligibility cfg o (qlStartClock p) :=
        qlDetection_id_of_quarantined o _ (by rw [hq2, hq])
      have hs3 : (qlCount (qlEligibility cfg o (qlStartClock p))).status = p.status :=
        ((qlCount_fields _).1).trans hs2
      have hq3 : (qlCount (qlEligibility cfg o (qlStartClock p))).quarantined = p.quarantined :=
        ((qlCount_fields _).2.1).trans hq2
      have hrel : qlRelease o (qlCount (qlEligibility cfg o (qlStartClock p))) =
          qlCount (qlEligibility cfg o (qlStartClock p)) :=
        qlRelease_id_of_infected o _ (by rw [hs3, hs])
      have hlife : quarantineLifecycle cfg o p =
          qlCount (qlEligibility cfg o (qlStartClock p)) := by
        unfold quarantineLifecycle
        rw [if_pos hmm, hdet, hrel]
      have hfr : FrozenFields p (qlCount (qlEligibility cfg o (qlStartClock p))) :=
        FrozenFields_trans (qlStartClock_frozen p)
          (FrozenFields_trans (qlEligibility_frozen cfg o _) (qlCount_frozen _))
      rw [hlife, motionBody_frozen o _ (hfr.2.2.2.2.1.trans he)
        (hfr.2.2.2.2.2.trans hg) (by rw [hq3, hq])]
      exact ⟨hfr.1, hfr.2.1, hfr.2.2.1, hfr.2.2.2.1⟩

/-- Witness for `claim2_motion`: part (a) applied to `deadAgent`, part
(b) applied to the quarantined `qAgent`. -/
theorem claim2_motion_witness :
    (updateAgent baseConfig baseOracle deadAgent =
      { updateAgent baseConfig baseOracle { deadAgent with status := .healthy } with
          status := .dead }) ∧
    ((updateAgent quarConfig baseOracle qAgent).x = qAgent.x ∧
     (updateAgent quarConfig baseOracle qAgent).y = qAgent.y ∧
     (updateAgent quarConfig baseOracle qAgent).vx = qAgent.vx ∧
     (updateAgent quarConfig baseOracle qAgent).vy = qAgent.vy) :=
  ⟨claim2_motion.1 baseConfig baseOracle deadAgent rfl rfl,
   claim2_motion.2 quarConfig baseOracle qAgent rfl rfl rfl (Or.inr rfl)⟩

/-! ## Claim C9 — Recovered and Dead are absorbing; Exposed only from
Healthy -/

theorem statusReach_absorbing : ∀ a b : Status, statusReach a b = true →
    ((a = .recovered → b = .recovered) ∧ (a = .dead → b = .dead) ∧
     (b = .exposed → a = .healthy ∨ a = .exposed)) := by
  decide

/-- **C9**: across one full simulation tick, an agent that is Recovered
stays Recovered and an agent that is Dead stays Dead (so by induction
neither ever changes again), and an agent that is Exposed after the
tick was Healthy or already Exposed before it — Recovered agents are
never re-exposed. -/
theorem claim9_absorbing (cfg : Config) (o : TickOracle) (time : ℕ) (st : SimState)
    (i : ℕ) (p q : Particle) (hp : st.ps[i]? = some p)
    (hq : (tick cfg o time st).ps[i]? = some q) :
    (p.status = .recovered → q.status = .recovered) ∧
    (p.status = .dead → q.status = .dead) ∧
    (q.status = .exposed → p.status = .healthy ∨ p.status = .exposed) := by
  obtain ⟨q2, hq2, hreach⟩ := tick_status_reach cfg o time st i p hp
  have hqq : q2 = q := by
    rw [hq2] at hq
    exact (Option.some.injEq _ _).mp hq
  subst hqq
  exact statusReach_absorbing _ _ hreach

/-- Witness for `claim9_absorbing`: a Recovered agent is still
Recovered after a concrete tick. -/
theorem claim9_absorbing_witness :
    ({ recoveredAgent with x := 101, y := 101 } : Particle).status = .recovered :=
  (claim9_absorbing baseConfig baseTickOracle 1 ⟨[recoveredAgent], [], []⟩ 0
    recoveredAgent { recoveredAgent with x := 101, y := 101 } rfl
    (by with_unfolding_all decide)).1 rfl

/-! ## Claim C3 — quarantine region membership vs quarantine status -/

/-- **C3 counterexample**: an agent in EnRouteToQuarantine transit
(pending `quarantineEntryAnim`) still has its origin region as
`currentCommunity`, so in the one-agent state `[entryAgent]` the count
of agents in the quarantine region is `0` while the count of agents in
the three claimed quarantine phases is `1`. -/
theorem claim3_counterexample :
    entryAgent.status = .infected ∧ entryAgent.quarantineEntryAnim ≠ none ∧
    countInQuarantineRegion [entryAgent] = 0 ∧
    countQuarantinePhases [entryAgent] = 1 ∧
    countInQuarantineRegion [entryAgent] ≠ countQuarantinePhases [entryAgent] := by
  refine ⟨rfl, ?_, ?_, ?_, ?_⟩ <;> decide

/-- **C3 (amended)**: at every tick, the number of agents whose current
region is the quarantine region equals the number of agents with the
`quarantined` flag set (quarantine statuses Quarantined and
EnRouteHome); agents in EnRouteToQuarantine transit keep their origin
region until arrival.  Formally: the pointwise invariant "flag set iff
region = 8 (and the home region is normal)" holds initially, is
preserved by every tick, and makes the two counts equal. -/
theorem claim3_region_iff_flag :
    (∀ ps : List Particle, (∀ p ∈ ps, regionFlagInv p) →
      countInQuarantineRegion ps = countQuarantineFlagged ps) ∧
    (∀ (cfg : Config) (o : TickOracle) (time : ℕ) (st : SimState),
      (∀ p ∈ st.ps, regionFlagInv p) → ∀ q ∈ (tick cfg o time st).ps, regionFlagInv q) ∧
    (∀ (o : ℕ → InitDraw) (count k : ℕ), ∀ p ∈ initialState o count k, regionFlagInv p) := by
  refine ⟨?_, fun cfg o time st h => tick_inv cfg o time st h, ?_⟩
  · intro ps h
    unfold countInQuarantineRegion countQuarantineFlagged
    apply List.countP_congr
    intro p hp
    have hiff := (h p hp).1
    constructor
    · intro hd
      rw [hiff]
      exact of_decide_eq_true hd
    · intro hq
      exact decide_eq_true (hiff.mp hq)
  · intro o count k p hp
    unfold initialState at hp
    obtain ⟨i, hi, rfl⟩ := List.mem_map.mp hp
    have hmin : min (i / PARTICLES_PER_COMMUNITY) (NORMAL_COMMUNITIES - 1) ≠
        QUARANTINE_COMMUNITY_IDX := by
      have := Nat.min_le_right (i / PARTICLES_PER_COMMUNITY) (NORMAL_COMMUNITIES - 1)
      norm_num [NORMAL_COMMUNITIES, COMMUNITY_ROWS, COMMUNITY_COLS,
        QUARANTINE_COMMUNITY_IDX] at this ⊢
      omega
    constructor
    · constructor
      · intro hfalse
        exact absurd hfalse (by simp)
      · intro h8
        exact absurd h8 hmin
    · exact hmin

/-- Witness for `claim3_region_iff_flag` on a concrete one-agent
state. -/
theorem claim3_region_iff_flag_witness :
    countInQuarantineRegion [baseParticle] = countQuarantineFlagged [baseParticle] :=
  claim3_region_iff_flag.1 [baseParticle] (by intro p hp; cases hp with
    | head => exact ⟨by decide, by decide⟩
    | tail _ h => cases h)

/-! ## Claim C5 — the per-contact transmission attempt -/

/-- **C5**: one transmission attempt between an Infected source and a
Healthy candidate of the same (normal) region behaves exactly as
specified: the pair is skipped unless both agents are at a region
centre simultaneously or neither is (`src.atCentre = other.atCentre`);
infection further requires the squared Euclidean distance strictly
below the squared infection radius, and a draw against one tenth of the
configured infection probability; a successful draw sets the target to
Exposed with `timeInfected = 0`, appends exactly one Infection Event
attributing the source, and increments the source's per-episode
infection count by one — and nothing else changes. -/
theorem claim5_transmission (cfg : Config) (o : InfOracle) (time i j : ℕ)
    (src other : Particle) (st : SimState) (hj : st.ps[j]? = some other)
    (hne : i ≠ j) (hh : other.status = .healthy)
    (hcomm : src.currentCommunity = other.currentCommunity) :
    processPair cfg o time i src st j =
      if (src.atCentre = other.atCentre) ∧
         ((src.x - other.x) * (src.x - other.x) +
          (src.y - other.y) * (src.y - other.y) <
            cfg.infectionRadius * cfg.infectionRadius) ∧
         (o.infDraw i j < cfg.infectionProbability / 10) then
        { ps := st.ps.set j { other with status := .exposed, timeInfected := 0 },
          events := st.events ++ [⟨i, time⟩],
          counts := mapSet st.counts i (mapGet st.counts i + 1) }
      else st := by
  have hgate : ((src.atCentre = true ∧ other.atCentre = true ∧
      src.currentCommunity = other.currentCommunity) ∨
      (src.atCentre = false ∧ other.atCentre = false)) ↔
      (src.atCentre = other.atCentre) := by
    constructor
    · rintro (⟨h1, h2, -⟩ | ⟨h1, h2⟩) <;> rw [h1, h2]
    · intro h
      cases ha : src.atCentre
      · rw [ha] at h
        exact Or.inr ⟨rfl, h.symm⟩
      · rw [ha] at h
        exact Or.inl ⟨rfl, h.symm, hcomm⟩
  unfold processPair
  rw [if_neg hne, hj]
  dsimp only
  rw [if_neg (by rw [hh]; simp)]
  split_ifs <;> first | rfl | (exfalso; tauto)

/-- Witness for `claim5_transmission`: a successful concrete attempt
(sources at distance 5, radius 20, draw 0 against 0.02). -/
theorem claim5_transmission_witness :
    processPair baseConfig hotInfOracle 7 0 sickAgent
        ⟨[sickAgent, nearbyHealthy], [], []⟩ 1 =
      { ps := [sickAgent, { nearbyHealthy with status := .exposed, timeInfected := 0 }],
        events := [⟨0, 7⟩], counts := [(0, 1)] } := by
  rw [claim5_transmission baseConfig hotInfOracle 7 0 1 sickAgent nearbyHealthy
    ⟨[sickAgent, nearbyHealthy], [], []⟩ rfl (by decide) rfl rfl]
  with_unfolding_all decide

/-! ## Claim C6 — the reproduction estimator -/

theorem list_sum_toFinset_eq (l : List ℕ) (f : ℕ → ℚ) :
    (∑ s ∈ l.toFinset, f s) = (l.dedup.map f).sum := by
  induction l with
  | nil => simp
  | cons a t ih =>
    by_cases h : a ∈ t
    · rw [List.toFinset_cons, List.dedup_cons_of_mem h,
        Finset.insert_eq_self.mpr (List.mem_toFinset.mpr h), ih]
    · rw [List.toFinset_cons, List.dedup_cons_of_not_mem h,
        Finset.sum_insert (by simp [h]), List.map_cons, List.sum_cons, ih]

/-- **C6**: at every tick the code's reproduction estimate equals the
specification's: the mean, over the set of distinct source agents with
at least one Infection Event in the trailing 50-tick window, of each
source's recorded per-episode infection count — and it is exactly `0`
when no event lies in the window, in particular at tick 0 with no
events. -/
theorem claim6_rt (events : List InfEvent) (counts : CountMap) (time : ℕ) :
    computeRt events counts time = specRt events counts time ∧
    computeRt [] counts 0 = 0 := by
  constructor
  · unfold computeRt specRt
    dsimp only
    set l := ((events.filter (fun e => decide ((time : ℤ) - 50 < (e.time : ℤ)))).map
      (fun e => e.infectorIndex)) with hl
    have hcard : l.toFinset.card = l.dedup.length := List.card_toFinset l
    have hne : l.toFinset.Nonempty ↔ 0 < l.dedup.length := by
      rw [← Finset.card_pos, hcard]
    have hsum : (∑ s ∈ l.toFinset, (mapGet counts s : ℚ)) =
        (((l.dedup.map (fun idx => mapGet counts idx)).sum : ℕ) : ℚ) := by
      rw [list_sum_toFinset_eq l (fun s => (mapGet counts s : ℚ)),
        Nat.cast_list_sum, List.map_map]
      rfl
    by_cases h1 : 0 < l.dedup.length
    · rw [if_pos h1, if_pos (hne.mpr h1), hsum, hcard]
    · rw [if_neg h1, if_neg (fun hnn => h1 (hne.mp hnn))]
  · rfl

/-! ## Claim C8 — the spatial hash -/

theorem hashStep_mem (cellSize : ℚ) (filt : Option ℕ) (h0 : CellKey → List ℕ)
    (a : ℕ × Particle) (k : CellKey) (i : ℕ) (hmem : i ∈ hashStep cellSize filt h0 a k) :
    i ∈ h0 k ∨
      (a.1 = i ∧ (∀ c, filt = some c → a.2.currentCommunity = c) ∧
       a.2.status ≠ .dead ∧ k = hashKey a.2 cellSize) := by
  unfold hashStep at hmem
  split at hmem
  · exact Or.inl hmem
  next hfilt =>
    split at hmem
    · exact Or.inl hmem
    next hdead =>
      dsimp only at hmem
      split at hmem
      next hkey =>
        rcases List.mem_append.mp hmem with h | h
        · exact Or.inl h
        · refine Or.inr ⟨(List.mem_singleton.mp h).symm, ?_, hdead, hkey⟩
          intro c hc
          rw [hc] at hfilt
          have := of_decide_eq_false (Bool.of_not_eq_true hfilt)
          exact not_not.mp this
      · exact Or.inl hmem

theorem makeSpatialHash_mem_aux (cellSize : ℚ) (filt : Option ℕ) :
    ∀ (l : List (ℕ × Particle)) (h0 : CellKey → List ℕ) (k : CellKey) (i : ℕ),
      i ∈ (l.foldl (hashStep cellSize filt) h0) k →
      i ∈ h0 k ∨ ∃ a ∈ l, a.1 = i ∧ (∀ c, filt = some c → a.2.currentCommunity = c) ∧
        a.2.status ≠ .dead ∧ k = hashKey a.2 cellSize := by
  intro l
  induction l with
  | nil => intro h0 k i h; exact Or.inl h
  | cons a t ih =>
    intro h0 k i h
    rcases ih (hashStep cellSize filt h0 a) k i h with h1 | ⟨b, hb, hrest⟩
    · rcases hashStep_mem cellSize filt h0 a k i h1 with h2 | h2
      · exact Or.inl h2
      · exact Or.inr ⟨a, List.mem_cons_self a t, h2⟩
    · exact Or.inr ⟨b, List.mem_cons_of_mem a hb, hrest⟩

theorem hashStep_mem_preserved (cellSize : ℚ) (filt : Option ℕ)
    (h0 : CellKey → List ℕ) (a : ℕ × Particle) (k : CellKey) (i : ℕ)
    (hmem : i ∈ h0 k) : i ∈ hashStep cellSize filt h0 a k := by
  unfold hashStep
  split
  · exact hmem
  split
  · exact hmem
  dsimp only
  split
  · exact List.mem_append_left _ hmem
  · exact hmem

theorem foldl_hashStep_mem_preserved (cellSize : ℚ) (filt : Option ℕ) :
    ∀ (l : List (ℕ × Particle)) (h0 : CellKey → List ℕ) (k : CellKey) (i : ℕ),
      i ∈ h0 k → i ∈ (l.foldl (hashStep cellSize filt) h0) k := by
  intro l
  induction l with
  | nil => intro h0 k i h; exact h
  | cons a t ih =>
    intro h0 k i h
    exact ih (hashStep cellSize filt h0 a) k i
      (hashStep_mem_preserved cellSize filt h0 a k i h)

theorem hashStep_mem_self (cellSize : ℚ) (filt : Option ℕ)
    (h0 : CellKey → List ℕ) (i : ℕ) (p : Particle)
    (hdead : p.status ≠ .dead) (hfilt : ∀ c, filt = some c → p.currentCommunity = c) :
    i ∈ hashStep cellSize filt h0 (i, p) (hashKey p cellSize) := by
  unfold hashStep
  rw [if_neg, if_neg]
  · dsimp only
    rw [if_pos rfl]
    exact List.mem_append_right _ (List.mem_singleton.mpr rfl)
  · exact fun hc => hdead hc
  · cases filt with
    | none => simp
    | some c =>
      rw [hfilt c rfl]
      simp

theorem makeSpatialHash_complete_aux (cellSize : ℚ) (filt : Option ℕ) :
    ∀ (l : List (ℕ × Particle)) (h0 : CellKey → List ℕ) (i : ℕ) (p : Particle),
      (i, p) ∈ l → p.status ≠ .dead →
      (∀ c, filt = some c → p.currentCommunity = c) →
      i ∈ (l.foldl (hashStep cellSize filt) h0) (hashKey p cellSize) := by
  intro l
  induction l with
  | nil => intro h0 i p hmem; exact absurd hmem (List.not_mem_nil _)
  | cons a t ih =>
    intro h0 i p hmem hdead hfilt
    rcases List.mem_cons.mp hmem with h | h
    · subst h
      exact foldl_hashStep_mem_preserved cellSize filt t _ _ i
        (hashStep_mem_self cellSize filt h0 i p hdead hfilt)
    · exact ih (hashStep cellSize filt h0 a) i p h hdead hfilt

/-- **C8**: the spatial hash contains exactly the live agents the
claim describes: (soundness) every index in a bucket of
`makeSpatialHash` belongs to a live (non-Dead) particle that matches
the community filter when one is supplied, and the bucket key is
exactly that particle's region index paired with its integer-divided
cell coordinates — hence two particles in different regions never
share a bucket, even at identical local coordinates; and
(completeness) every included agent — live and matching the filter
when one is supplied — is assigned to the bucket keyed by its region
index together with its integer-divided cell coordinates. -/
theorem claim8_spatial_hash :
    (∀ (ps : List Particle) (cellSize : ℚ) (filt : Option ℕ) (k : CellKey) (i : ℕ),
      i ∈ makeSpatialHash ps cellSize filt k →
      ∃ p, ps[i]? = some p ∧ p.status ≠ .dead ∧
        (∀ c, filt = some c → p.currentCommunity = c) ∧ k = hashKey p cellSize) ∧
    (∀ (ps : List Particle) (cellSize : ℚ) (filt : Option ℕ) (k : CellKey)
       (i j : ℕ) (p q : Particle),
      i ∈ makeSpatialHash ps cellSize filt k → j ∈ makeSpatialHash ps cellSize filt k →
      ps[i]? = some p → ps[j]? = some q →
      p.currentCommunity = q.currentCommunity) ∧
    (∀ (ps : List Particle) (cellSize : ℚ) (filt : Option ℕ) (i : ℕ) (p : Particle),
      ps[i]? = some p → p.status ≠ .dead →
      (∀ c, filt = some c → p.currentCommunity = c) →
      i ∈ makeSpatialHash ps cellSize filt (hashKey p cellSize)) := by
  have main : ∀ (ps : List Particle) (cellSize : ℚ) (filt : Option ℕ) (k : CellKey) (i : ℕ),
      i ∈ makeSpatialHash ps cellSize filt k →
      ∃ p, ps[i]? = some p ∧ p.status ≠ .dead ∧
        (∀ c, filt = some c → p.currentCommunity = c) ∧ k = hashKey p cellSize := by
    intro ps cellSize filt k i h
    unfold makeSpatialHash at h
    rcases makeSpatialHash_mem_aux cellSize filt ps.enum (fun _ => []) k i h with
      h1 | ⟨a, ha, hai, hfilt, hdead, hkey⟩
    · exact absurd h1 (List.not_mem_nil i)
    · refine ⟨a.2, ?_, hdead, hfilt, hkey⟩
      have := List.mem_enum_iff_getElem?.mp ha
      rw [hai] at this
      exact this
  refine ⟨main, ?_, ?_⟩
  swap
  · intro ps cellSize filt i p hp hdead hfilt
    unfold makeSpatialHash
    refine makeSpatialHash_complete_aux cellSize filt ps.enum _ i p ?_ hdead hfilt
    exact List.mem_enum_iff_getElem?.mpr hp
  intro ps cellSize filt k i j p q hi hj hip hjp
  obtain ⟨p1, hp1, -, -, hk1⟩ := main ps cellSize filt k i hi
  obtain ⟨q1, hq1, -, -, hk2⟩ := main ps cellSize filt k j hj
  have hpp : p1 = p := by
    rw [hip] at hp1
    exact ((Option.some.injEq _ _).mp hp1).symm
  have hqq : q1 = q := by
    rw [hjp] at hq1
    exact ((Option.some.injEq _ _).mp hq1).symm
  subst hpp hqq
  have : hashKey p1 cellSize = hashKey q1 cellSize := hk1 ▸ hk2
  have := congrArg Prod.fst this
  simpa [hashKey] using this

/-- Witness for `claim8_spatial_hash` on a concrete two-particle hash:
(soundness) index 0 in the bucket `(0, 4, 4)` is the live `sickAgent`
at its own key, and (completeness) the included `nearbyHealthy` at
index 1 is assigned to the bucket of its key. -/
theorem claim8_spatial_hash_witness :
    (∃ p, ([sickAgent, nearbyHealthy][0]? : Option Particle) = some p ∧
      p.status ≠ .dead ∧
      (∀ c, (some 0 : Option ℕ) = some c → p.currentCommunity = c) ∧
      ((0 : ℕ), (4 : ℤ), (4 : ℤ)) = hashKey p 23) ∧
    1 ∈ makeSpatialHash [sickAgent, nearbyHealthy] 23 (some 0) (hashKey nearbyHealthy 23) :=
  ⟨claim8_spatial_hash.1 [sickAgent, nearbyHealthy] 23 (some 0) (0, 4, 4) 0
      (by with_unfolding_all decide),
   claim8_spatial_hash.2.2 [sickAgent, nearbyHealthy] 23 (some 0) 1 nearbyHealthy rfl
      (by decide) (fun c hc => by cases hc; rfl)⟩

/-! ## Claim C10 — agents in quarantine-entry transit still transmit -/

/-- **C10**: the transmission pass treats every Infected,
non-quarantined agent of a scanned normal region as a source, pending
`quarantineEntryAnim` included: (1) an agent failing the source filter
is skipped untouched; (2) the source filter never reads
`quarantineEntryAnim`; (3) the entry transit, before arrival, keeps
`currentCommunity`, the unset `quarantined` flag and the pending
animation; and (4) concretely, an in-transit Infected source still
progresses (`timeInfected` increments) and infects a Healthy neighbour
of its origin region during the infection pass. -/
theorem claim10_transit_sources :
    (∀ (cfg : Config) (o : InfOracle) (time : ℕ) (cellSize : ℚ) (community : ℕ)
       (hash : CellKey → List ℕ) (st : SimState) (i : ℕ) (p : Particle),
      st.ps[i]? = some p → ¬ isTransmissionSource p community →
      processSource cfg o time cellSize community hash st i = st) ∧
    (∀ (p : Particle) (a : Option (ℚ × ℚ)) (community : ℕ),
      isTransmissionSource { p with quarantineEntryAnim := a } community ↔
      isTransmissionSource p community) ∧
    (∀ (o : MoveOracle) (p : Particle) (t : ℚ × ℚ),
      p.quarantineEntryAnim = some t →
      ¬((t.1 - p.x) * (t.1 - p.x) + (t.2 - p.y) * (t.2 - p.y) < 9) →
      (motionBody o p).currentCommunity = p.currentCommunity ∧
      (motionBody o p).quarantined = p.quarantined ∧
      (motionBody o p).quarantineEntryAnim = some t) ∧
    (infectionPhase baseConfig hotInfOracle 5 ⟨[entryAgent, nearbyHealthy], [], []⟩ =
      ⟨[{ entryAgent with timeInfected := 1, willDie := some false, infectionCount := some 0 },
        { nearbyHealthy with status := .exposed, timeInfected := 0 }],
       [⟨0, 5⟩], [(0, 1)]⟩) := by
  refine ⟨?_, ?_, ?_, ?_⟩
  · intro cfg o time cellSize community hash st i p hp hns
    unfold processSource
    rw [hp]
    dsimp only
    rw [if_pos]
    unfold isTransmissionSource at hns
    by_contra hc
    push_neg at hc
    obtain ⟨h1, h2, h3⟩ := hc
    refine hns ⟨h1, ?_, h3⟩
    cases hq : p.quarantined
    · rfl
    · exact absurd hq h2
  · intro p a community
    exact Iff.rfl
  · intro o p t ha hd
    unfold motionBody
    rw [ha]
    dsimp only
    rw [if_neg hd]
    exact ⟨rfl, rfl, rfl⟩
  · with_unfolding_all decide

/-- Witness for `claim10_transit_sources`: the skip direction applied
to the healthy `baseParticle` (not a transmission source), and the
transit-motion part applied to `entryAgent` far from its target. -/
theorem claim10_transit_sources_witness :
    (processSource baseConfig baseInfOracle 1 23 0 (fun _ => [])
        ⟨[baseParticle], [], []⟩ 0 = ⟨[baseParticle], [], []⟩) ∧
    ((motionBody baseOracle entryAgent).currentCommunity = entryAgent.currentCommunity ∧
     (motionBody baseOracle entryAgent).quarantined = entryAgent.quarantined ∧
     (motionBody baseOracle entryAgent).quarantineEntryAnim = some (600, 600)) :=
  ⟨claim10_transit_sources.1 baseConfig baseInfOracle 1 23 0 (fun _ => [])
      ⟨[baseParticle], [], []⟩ 0 baseParticle rfl
      (fun hs => by exact absurd hs.2.2 (by decide)),
   claim10_transit_sources.2.2.1 baseOracle entryAgent (600, 600) rfl
      (by with_unfolding_all decide)⟩

end Epidemic
